import Mathlib

/-!
Verification development for the presentation synthesis engine:
a shallow embedding of `src/schemas.py` and `src/converters/json_to_ppt.py`
(layout selection, placeholder filling, image fallback chain, table and
chart materialization, validation and the synthesis orchestrator),
followed by theorems checking the specified properties against it.
-/

namespace PPT

/-! ## Basic value model (Python scalars appearing in the schema) -/

/-- A numeric JSON value `Union[int, float]`.  Floats are modelled as
rationals; the properties proved never depend on float rounding. -/
inductive PyNum where
  | i (v : Int)
  | f (v : Rat)
deriving DecidableEq, Repr

/-- A table cell value `Union[str, int, float]`. -/
inductive CellValue where
  | s (v : String)
  | i (v : Int)
  | f (v : Rat)
deriving DecidableEq, Repr

/-- Python `str(val)` coercion on a cell value.  String and int cases are
exact; the float case uses the rational printer as a stand-in (no proved
property compares a float cell against a string literal). -/
def pyStr : CellValue → String
  | .s v => v
  | .i v => toString v
  | .f v => toString v

/-! ## Content schema entities (`src/schemas.py`) -/

/-- Model `TextFormatting`. -/
structure TextFormatting where
  bold : Bool := false
  italic : Bool := false
  color : Option String := none
  size : Option Rat := none
deriving DecidableEq, Repr

/-- Model `TextRun`. -/
structure TextRun where
  text : String
  formatting : Option TextFormatting := none
  hyperlink : Option String := none
deriving DecidableEq, Repr

/-- Model `BulletPoint` (validated: `0 <= level <= 5`). -/
structure BulletPoint where
  text : String
  level : Int := 0
  formatting : Option TextFormatting := none
deriving DecidableEq, Repr

/-- Model `TableData` (validated: nonempty `headers` and `rows`). -/
structure TableData where
  headers : List String
  rows : List (List CellValue)
  style : Option String := none
deriving DecidableEq, Repr

/-- Model `ChartSeries`. -/
structure ChartSeries where
  name : String
  data : List PyNum
deriving DecidableEq, Repr

/-- The `Literal` chart type. -/
inductive ChartType where
  | column
  | line
  | pie
deriving DecidableEq, Repr

/-- Model `ChartData` (validated: nonempty `categories` and `series`). -/
structure ChartData where
  type : ChartType := .column
  categories : List String
  series : List ChartSeries
deriving DecidableEq, Repr

/-- The `Literal` image position. -/
inductive ImagePosition where
  | left
  | right
  | full
deriving DecidableEq, Repr

/-- Model `ImageData`. -/
structure ImageData where
  path : String
  position : ImagePosition := .right
deriving DecidableEq, Repr

/-- The validated `content` field: `Union[str, List[TextRun]]`. -/
inductive SlideTextContent where
  | str (s : String)
  | runs (rs : List TextRun)
deriving DecidableEq, Repr

/-- Model `SlideContent` (post-validation). -/
structure SlideContent where
  title : String
  content : Option SlideTextContent := none
  bullet_points : Option (List BulletPoint) := none
  table : Option TableData := none
  chart : Option ChartData := none
  image : Option ImageData := none
  layout : Option String := none
deriving DecidableEq, Repr

/-- Model `PresentationInput` (post-validation). -/
structure PresentationInput where
  title : String
  subtitle : Option String := none
  author : Option String := none
  subject : Option String := none
  slides : List SlideContent
deriving DecidableEq, Repr

/-! ## Python truthiness of the validated fields -/

/-- Truthiness of the `content` field: a nonempty string or a nonempty run
list; `None` is falsy. -/
def truthyContent : Option SlideTextContent → Bool
  | none => false
  | some (.str s) => s != ""
  | some (.runs rs) => !rs.isEmpty

/-- Truthiness of the `bullet_points` field: a nonempty list. -/
def truthyBullets : Option (List BulletPoint) → Bool
  | none => false
  | some l => !l.isEmpty

/-- Truthiness of an optional string (`None` and the empty string are
falsy). -/
def truthyStr : Option String → Bool
  | none => false
  | some s => s != ""

/-! ## Layout catalog and layout selection (`json_to_ppt.py`) -/

/-- The `LAYOUTS` dict: catalog key to template layout name. -/
def LAYOUTS : List (String × String) :=
  [("title_slide", "Title Slide"),
   ("content_only", "Content Only"),
   ("image_right", "Image Right"),
   ("image_left", "Image Left"),
   ("image_full", "Image Full"),
   ("table", "Table"),
   ("chart", "Chart"),
   ("chart_with_text", "Chart with Text"),
   ("two_columns", "Two Columns")]

/-- Dict lookup `LAYOUTS.get(k)`. -/
def LAYOUTS_lookup (k : String) : Option String :=
  (LAYOUTS.find? (fun p => p.1 == k)).map (fun p => p.2)

/-- The string form of an image position, as interpolated into
`f"image_..."` by `detect_layout`. -/
def positionStr : ImagePosition → String
  | .left => "left"
  | .right => "right"
  | .full => "full"

/-- Function `detect_layout(slide)`: auto-detect the best layout for a slide based
on its content.  Mirrors the precedence of the source: chart, then table,
then image, then a recognized layout hint, then the fallback. -/
def detect_layout (slide : SlideContent) : String :=
  if slide.chart.isSome then (LAYOUTS_lookup "chart").getD ""
  else if slide.table.isSome then (LAYOUTS_lookup "table").getD ""
  else
    match slide.image with
    | some img => (LAYOUTS_lookup ("image_" ++ positionStr img.position)).getD ""
    | none =>
      match slide.layout with
      | some l =>
        if l != "" && (LAYOUTS_lookup l).isSome then (LAYOUTS_lookup l).getD ""
        else (LAYOUTS_lookup "content_only").getD ""
      | none => (LAYOUTS_lookup "content_only").getD ""

/-! ## Hex color parsing (`hex_to_rgb`) and `int(s, 16)` -/

/-- The digit characters accepted by Python `int(s, 16)` (the decimal
digits and both cases of the first six letters, interleaved). -/
def hexDigits : List Char :=
  ['A', '0', 'a', '1', 'B', '2', 'b', '3', 'C', '4', 'c', '5',
   'D', '6', 'd', '7', 'E', '8', 'e', '9', 'F', 'f']

/-- Is `c` a hexadecimal digit (as accepted by Python `int(s, 16)`). -/
def isHexDigit (c : Char) : Bool :=
  hexDigits.contains c

/-- Numeric value of a hexadecimal digit. -/
def hexVal (c : Char) : Nat :=
  if c.isDigit then c.toNat - 48
  else if 'a' ≤ c && c ≤ 'f' then c.toNat - 87
  else c.toNat - 55

/-- Digits of a base-16 literal after the first digit: hexadecimal digits
with single underscores allowed between digits (CPython lexical rule). -/
def hexTail (acc : Nat) : List Char → Option Nat
  | [] => some acc
  | c :: rest =>
    if c == '_' then
      match rest with
      | c2 :: rest2 =>
        if isHexDigit c2 then hexTail (acc * 16 + hexVal c2) rest2 else none
      | [] => none
    else if isHexDigit c then hexTail (acc * 16 + hexVal c) rest else none

/-- A nonempty run of hexadecimal digits (with inner underscores). -/
def hexBody : List Char → Option Nat
  | [] => none
  | c :: rest => if isHexDigit c then hexTail (hexVal c) rest else none

/-- The part of a base-16 int literal after the optional sign: an optional
`0x` or `0X` marker (optionally followed by one underscore) and then the
digits. -/
def hexAfterSign (cs : List Char) : Option Nat :=
  match cs with
  | c0 :: x :: rest =>
    if c0 == '0' && (x == 'x' || x == 'X') then
      match rest with
      | c :: rest2 => if c == '_' then hexBody rest2 else hexBody rest
      | [] => hexBody rest
    else hexBody cs
  | _ => hexBody cs

/-- Model of CPython `int(s, 16)`: surrounding whitespace stripped, an
optional sign, an optional `0x` marker, then hexadecimal digits.
`none` models the `ValueError` raised on any other string. -/
def pyIntHex (cs : List Char) : Option Int :=
  let cs1 := cs.dropWhile Char.isWhitespace
  let cs2 := (cs1.reverse.dropWhile Char.isWhitespace).reverse
  match cs2 with
  | [] => none
  | c :: rest =>
    if c == '+' then (hexAfterSign rest).map (fun n => (n : Int))
    else if c == '-' then (hexAfterSign rest).map (fun n => -(n : Int))
    else (hexAfterSign (c :: rest)).map (fun n => (n : Int))

/-- Python slice `l[a:b]` on a list of characters (clamping, as Python
slicing does). -/
def pySlice (l : List Char) (a b : Nat) : List Char :=
  (l.drop a).take (b - a)

/-- Constructor `pptx.dml.color.RGBColor(r, g, b)`: requires three integers in
`0..255`, otherwise raises `ValueError`. -/
def RGBColor (r g b : Int) : Except String (Nat × Nat × Nat) :=
  if 0 ≤ r ∧ r ≤ 255 ∧ 0 ≤ g ∧ g ≤ 255 ∧ 0 ≤ b ∧ b ≤ 255 then
    .ok (r.toNat, g.toNat, b.toNat)
  else .error "RGBColor takes three integer values 0-255"

/-- Function `hex_to_rgb(hex_color)`: strip leading `#` characters (`lstrip`), then
parse the three two-character slices with `int(.., 16)`.  An `Except`
error models the Python exception escaping the function. -/
def hex_to_rgb (hex_color : String) : Except String (Nat × Nat × Nat) := do
  let h := hex_color.toList.dropWhile (fun c => c == '#')
  let r ← match pyIntHex (pySlice h 0 2) with
    | some v => Except.ok v
    | none => Except.error "ValueError: invalid literal for int with base 16"
  let g ← match pyIntHex (pySlice h 2 4) with
    | some v => Except.ok v
    | none => Except.error "ValueError: invalid literal for int with base 16"
  let b ← match pyIntHex (pySlice h 4 6) with
    | some v => Except.ok v
    | none => Except.error "ValueError: invalid literal for int with base 16"
  RGBColor r g b

/-! ## Runs, paragraphs and placeholder contents (the output document) -/

/-- The state of one text run in the output document.  `none` fields are
font attributes never written (inheriting template styling). -/
structure Run where
  text : String
  bold : Option Bool := none
  italic : Option Bool := none
  color : Option (Nat × Nat × Nat) := none
  size : Option Rat := none
  underline : Option Bool := none
  hyperlink : Option String := none
deriving DecidableEq, Repr

/-- One paragraph of a text frame: its runs, indentation level, and
whether a `buAutoNum` auto-numbering element was appended. -/
structure Para where
  runs : List Run := []
  level : Int := 0
  autoNum : Bool := false
deriving DecidableEq, Repr

/-- The source of an inserted picture: downloaded bytes or a file path. -/
inductive ImageSource where
  | stream (bytes : String)
  | file (path : String)
deriving DecidableEq, Repr

/-- The chart type constants of `pptx.enum.chart.XL_CHART_TYPE` used. -/
inductive XlChartType where
  | columnClustered
  | line
  | pie
deriving DecidableEq, Repr

/-- A filled table cell: its text and the header styling attributes that
`fill_table` may set (`none` means not written). -/
structure FilledCell where
  text : String := ""
  fillColor : Option (Nat × Nat × Nat) := none
  fontColor : Option (Nat × Nat × Nat) := none
  fontBold : Option Bool := none
deriving DecidableEq, Repr

/-- The content of a placeholder in the output document.  `empty` is a
placeholder never written (template-inherited content). -/
inductive PHContent where
  | empty
  | frame (paras : List Para)
  | picture (src : ImageSource)
  | table (grid : List (List FilledCell))
  | chart (ctype : XlChartType) (categories : List String)
      (series : List (String × List PyNum))
deriving DecidableEq, Repr

/-- Assignment `ph.text = s` (and `p.text = s`): a single paragraph holding a single
run with that text. -/
def textSet (s : String) : PHContent :=
  .frame [{ runs := [{ text := s }] }]

/-- A placeholder: its `placeholder_format.type`, `placeholder_format.idx`,
whether it has a text frame, and its current content. -/
structure Placeholder where
  phType : Nat
  idx : Nat
  hasTextFrame : Bool := true
  content : PHContent := .empty
deriving DecidableEq, Repr

/-- The placeholder type constants of the source:
`PH_TITLE, PH_BODY, PH_OBJECT, PH_CHART, PH_TABLE, PH_PICTURE = 1, 2, 7, 8, 12, 18`. -/
def PH_TITLE : Nat := 1

/-- Body placeholder type. -/
def PH_BODY : Nat := 2

/-- Object placeholder type. -/
def PH_OBJECT : Nat := 7

/-- Chart placeholder type. -/
def PH_CHART : Nat := 8

/-- Table placeholder type. -/
def PH_TABLE : Nat := 12

/-- Picture placeholder type. -/
def PH_PICTURE : Nat := 18

/-- A named slide layout of the template, with its placeholders. -/
structure SlideLayout where
  name : String
  placeholders : List Placeholder
deriving DecidableEq, Repr

/-- A slide of the (input template or output) document. -/
structure Slide where
  layoutName : String
  placeholders : List Placeholder
deriving DecidableEq, Repr

/-- The in-memory presentation: its layout catalog, slides, and the core
properties the generator writes. -/
structure Pres where
  slide_layouts : List SlideLayout
  slides : List Slide
  core_title : Option String := none
  core_author : Option String := none
  core_subject : Option String := none
deriving DecidableEq, Repr

/-- Error raised during generation: the `PPTGenerationError` cases of the
source, plus raw Python exceptions escaping the fill helpers. -/
inductive GenError where
  | validationError (details : String)
  | layoutNotFound (name : String) (available : List String)
  | pyError (msg : String)
deriving DecidableEq, Repr

/-! ## `apply_formatting` and `fill_text` -/

/-- Function `apply_formatting(run, fmt)`: conditionally set bold, italic, color
(via `hex_to_rgb`, which may raise) and size on the run.  `fmt.color` and
`fmt.size` are truthiness-tested as in the source. -/
def apply_formatting (run : Run) (fmt : TextFormatting) : Except String Run := do
  let r := if fmt.bold then { run with bold := some true } else run
  let r := if fmt.italic then { r with italic := some true } else r
  let r ← match fmt.color with
    | some c =>
      if c != "" then do
        let rgb ← hex_to_rgb c
        pure { r with color := some rgb }
      else pure r
    | none => pure r
  let r := match fmt.size with
    | some v => if v ≠ 0 then { r with size := some v } else r
    | none => r
  pure r

/-- Build one run of the content run list: `run.text = run_data.text`,
optional formatting, and the hyperlink styling (blue + underline) when a
truthy hyperlink is present. -/
def buildRun (rd : TextRun) : Except String Run := do
  let r : Run := { text := rd.text }
  let r ← match rd.formatting with
    | some f => apply_formatting r f
    | none => pure r
  let r := match rd.hyperlink with
    | some h =>
      if h != "" then
        { r with hyperlink := some h, color := some (0, 0, 255), underline := some true }
      else r
    | none => r
  pure r

/-- Build all runs of a `content` run list, in order. -/
def buildRuns : List TextRun → Except String (List Run)
  | [] => .ok []
  | rd :: rest => do
    let r ← buildRun rd
    let rs ← buildRuns rest
    pure (r :: rs)

/-- Append one bullet paragraph: new paragraph with the bullet text, its
level, a `buAutoNum` element, and the bullet formatting applied to all
runs of the paragraph. -/
def addBullet (paras : List Para) (bp : BulletPoint) : Except String (List Para) := do
  let run0 : Run := { text := bp.text }
  let runs ← match bp.formatting with
    | some f => do
      let r ← apply_formatting run0 f
      pure [r]
    | none => pure [run0]
  pure (paras ++ [{ runs := runs, level := bp.level, autoNum := true }])

/-- Append all bullet paragraphs in order. -/
def addBullets (paras : List Para) : List BulletPoint → Except String (List Para)
  | [] => .ok paras
  | bp :: rest => do
    let ps ← addBullet paras bp
    addBullets ps rest

/-- Function `fill_text(placeholder, content, bullet_points)`: clear the frame,
write the content (a plain string as paragraph text, or one run per
`TextRun`), then append one auto-numbered paragraph per bullet point. -/
def fill_text (content : Option SlideTextContent)
    (bullet_points : Option (List BulletPoint)) : Except String PHContent := do
  let paras0 : List Para := [{}]
  let paras1 ← match content with
    | some (.str s) =>
      if s != "" then pure [({ runs := [{ text := s }] } : Para)]
      else pure paras0
    | some (.runs rs) =>
      if !rs.isEmpty then do
        let runs ← buildRuns rs
        pure [({ runs := runs } : Para)]
      else pure paras0
    | none => pure paras0
  let paras2 ← match bullet_points with
    | some bps => if !bps.isEmpty then addBullets paras1 bps else pure paras1
    | none => pure paras1
  pure (.frame paras2)

/-! ## `fill_table` -/

/-- Replace the element at position `i` (no-op when out of range); models
in-place mutation of a list element. -/
def listModify : List α → Nat → (α → α) → List α
  | [], _, _ => []
  | x :: xs, 0, f => f x :: xs
  | x :: xs, n + 1, f => x :: listModify xs n f

/-- Call `placeholder.insert_table(rows, cols)`: a fresh grid of empty cells. -/
def insert_table (nRows nCols : Nat) : List (List FilledCell) :=
  List.replicate nRows (List.replicate nCols {})

/-- Call `table.cell(r, c)` followed by mutation: raises `IndexError` when the
coordinates are out of range, otherwise updates that cell. -/
def modifyCell (g : List (List FilledCell)) (r c : Nat)
    (f : FilledCell → FilledCell) : Except String (List (List FilledCell)) :=
  match g.get? r with
  | none => .error "IndexError"
  | some row =>
    if c < row.length then .ok (listModify g r (fun row => listModify row c f))
    else .error "IndexError"

/-- The mutation applied to header cell `i`: `cell.text = str(header)` and,
when `style == "header_colored"`, a solid fill `RGBColor(0, 51, 102)`,
white font color and bold. -/
def setHeaderCell (style : Option String) (h : String) (c : FilledCell) : FilledCell :=
  let c := { c with text := h }
  if style == some "header_colored" then
    { c with fillColor := some (0, 51, 102), fontColor := some (255, 255, 255),
             fontBold := some true }
  else c

/-- The header loop `for i, header in enumerate(data.headers)`. -/
def fillHeaderLoop (style : Option String) (g : List (List FilledCell)) (i : Nat) :
    List String → Except String (List (List FilledCell))
  | [] => .ok g
  | h :: rest => do
    let g ← modifyCell g 0 i (setHeaderCell style h)
    fillHeaderLoop style g (i + 1) rest

/-- The inner data loop `for col_idx, val in enumerate(row)`. -/
def fillRowLoop (g : List (List FilledCell)) (rIdx cIdx : Nat) :
    List CellValue → Except String (List (List FilledCell))
  | [] => .ok g
  | v :: rest => do
    let g ← modifyCell g rIdx cIdx (fun c => { c with text := pyStr v })
    fillRowLoop g rIdx (cIdx + 1) rest

/-- The outer data loop `for row_idx, row in enumerate(data.rows)`. -/
def fillRowsLoop (g : List (List FilledCell)) (rIdx : Nat) :
    List (List CellValue) → Except String (List (List FilledCell))
  | [] => .ok g
  | row :: rest => do
    let g ← fillRowLoop g rIdx 0 row
    fillRowsLoop g (rIdx + 1) rest

/-- Function `fill_table(placeholder, data)`: insert a `len(rows)+1` by
`len(headers)` grid, fill the header row (with optional header styling),
then fill the data rows starting at row 1. -/
def fill_table (data : TableData) : Except String (List (List FilledCell)) := do
  let g := insert_table (data.rows.length + 1) data.headers.length
  let g ← fillHeaderLoop data.style g 0 data.headers
  fillRowsLoop g 1 data.rows

/-! ## `fill_chart` -/

/-- The `chart_types` dict with its `.get(.., COLUMN_CLUSTERED)` default;
the validated `Literal` always hits one of the three keys. -/
def chartTypeMap : ChartType → XlChartType
  | .column => .columnClustered
  | .line => .line
  | .pie => .pie

/-- Function `fill_chart(placeholder, data)`: category chart data with the given
categories and one series per `ChartSeries`, inserted with the mapped
chart type. -/
def fill_chart (data : ChartData) : PHContent :=
  .chart (chartTypeMap data.type) data.categories
    (data.series.map (fun s => (s.name, s.data)))

/-! ## Image resolution (`fetch_image_from_unsplash`, `fill_image`) -/

/-- The external environment of the image resolver: the configured
credential, the network (search and image download, which may fail), the
filesystem, and whether picture insertion succeeds for a given source. -/
structure ImageEnv where
  UNSPLASH_ACCESS_KEY : String := ""
  search : String → Except String (List String)
  fetchUrl : String → Except String String
  insertOk : ImageSource → Bool
  pathExists : String → Bool

/-- The module-level `FALLBACK_IMAGE` path constant. -/
def FALLBACK_IMAGE : String := "images/placeholder.jpg"

/-- Function `fetch_image_from_unsplash(query)`: returns `None` without a credential; on a
successful search with a nonempty result list, download the top hit; every
failure path returns `None` (exceptions are caught and logged). -/
def fetch_image_from_unsplash (env : ImageEnv) (query : String) : Option String :=
  if env.UNSPLASH_ACCESS_KEY == "" then none
  else
    match env.search query with
    | .error _ => none
    | .ok [] => none
    | .ok (url :: _) =>
      match env.fetchUrl url with
      | .error _ => none
      | .ok bytes => some bytes

/-- The outcome of `fill_image` on a placeholder. -/
inductive ImageFillResult where
  | picture (src : ImageSource)
  | text (s : String)
  | unchanged
deriving DecidableEq, Repr

/-- Function `fill_image(placeholder, data)`: try Unsplash, then the local path,
then the fallback asset, then the bracketed text stand-in; every
insertion failure is caught and falls through to the next tier. -/
def fill_image (env : ImageEnv) (hasTextFrame : Bool) (data : ImageData) :
    ImageFillResult :=
  let tier4 : ImageFillResult :=
    if hasTextFrame then .text ("[IMAGE: " ++ data.path ++ "]") else .unchanged
  let tier3 : ImageFillResult :=
    if env.pathExists FALLBACK_IMAGE then
      if env.insertOk (.file FALLBACK_IMAGE) then .picture (.file FALLBACK_IMAGE)
      else tier4
    else tier4
  let tier2 : ImageFillResult :=
    if env.pathExists data.path then
      if env.insertOk (.file data.path) then .picture (.file data.path)
      else tier3
    else tier3
  match fetch_image_from_unsplash env data.path with
  | some bytes =>
    if env.insertOk (.stream bytes) then .picture (.stream bytes) else tier2
  | none => tier2

/-- Apply an image fill outcome to the placeholder content. -/
def applyImageResult (old : PHContent) : ImageFillResult → PHContent
  | .picture src => .picture src
  | .text s => textSet s
  | .unchanged => old

/-! ## `get_layout` and the synthesis orchestrator -/

/-- Function `get_layout(prs, name)`: the first layout whose name matches, else a
`PPTGenerationError` whose details carry all available layout names. -/
def get_layout (prs : Pres) (name : String) : Except GenError SlideLayout :=
  match prs.slide_layouts.find? (fun l => l.name == name) with
  | some l => .ok l
  | none => .error (.layoutNotFound name (prs.slide_layouts.map (fun l => l.name)))

/-- Method `add_slide` clones the layout placeholders onto the new slide, except
date (16), footer (15) and slide-number (13) placeholders
(python-pptx `iter_cloneable_placeholders`). -/
def cloneablePlaceholders (phs : List Placeholder) : List Placeholder :=
  phs.filter (fun ph => !(ph.phType == 16 || ph.phType == 15 || ph.phType == 13))

/-- Positions (in iteration order) of the `PH_BODY` placeholders; models
the identity of the elements of the `body_phs` list comprehension. -/
def bodyPositions : List Placeholder → Nat → List Nat
  | [], _ => []
  | ph :: rest, i =>
    if ph.phType == PH_BODY then i :: bodyPositions rest (i + 1)
    else bodyPositions rest (i + 1)

/-- Title-slide filling: `body_phs[0].text = data.title` and, when a
second body placeholder exists and the subtitle is truthy,
`body_phs[1].text = data.subtitle`. -/
def fillTitleBodies (phs : List Placeholder) (title : String)
    (subtitle : Option String) : List Placeholder :=
  match bodyPositions phs 0 with
  | [] => phs
  | [i] => listModify phs i (fun ph => { ph with content := textSet title })
  | i :: j :: _ =>
    let a := listModify phs i (fun ph => { ph with content := textSet title })
    if truthyStr subtitle then
      listModify a j (fun ph => { ph with content := textSet (subtitle.getD "") })
    else a

/-- Is the placeholder of body role (`PH_BODY` or `PH_OBJECT`)? -/
def bodyRoleB (ph : Placeholder) : Bool :=
  ph.phType == PH_BODY || ph.phType == PH_OBJECT

/-- The per-placeholder dispatch of the content-slide loop: title, then
picture, then table, then chart, then the first-body-only text fill. -/
def fillOne (env : ImageEnv) (allPhs : List Placeholder) (sd : SlideContent)
    (ph : Placeholder) : Except GenError Placeholder :=
  if ph.phType == PH_TITLE then .ok { ph with content := textSet sd.title }
  else if ph.phType == PH_PICTURE && sd.image.isSome then
    match sd.image with
    | some img =>
      .ok { ph with content := applyImageResult ph.content (fill_image env ph.hasTextFrame img) }
    | none => .ok ph
  else if ph.phType == PH_TABLE && sd.table.isSome then
    match sd.table with
    | some t =>
      match fill_table t with
      | .ok grid => .ok { ph with content := .table grid }
      | .error e => .error (.pyError e)
    | none => .ok ph
  else if ph.phType == PH_CHART && sd.chart.isSome then
    match sd.chart with
    | some c => .ok { ph with content := fill_chart c }
    | none => .ok ph
  else if bodyRoleB ph && (truthyContent sd.content || truthyBullets sd.bullet_points) then
    match allPhs.filter bodyRoleB with
    | [] => .ok ph
    | first :: _ =>
      if ph.idx == first.idx then
        match fill_text sd.content sd.bullet_points with
        | .ok c => .ok { ph with content := c }
        | .error e => .error (.pyError e)
      else .ok ph
  else .ok ph

/-- Run the per-placeholder dispatch over the whole placeholder list,
propagating the first exception. -/
def mapFill (f : Placeholder → Except GenError Placeholder) :
    List Placeholder → Except GenError (List Placeholder)
  | [] => .ok []
  | p :: ps => do
    let q ← f p
    let qs ← mapFill f ps
    pure (q :: qs)

/-- Loop `for ph in slide.placeholders` on a freshly added content slide;
the body-first test reads the full placeholder list of the slide. -/
def fillContentSlide (env : ImageEnv) (phs : List Placeholder)
    (sd : SlideContent) : Except GenError (List Placeholder) :=
  mapFill (fillOne env phs sd) phs

/-- The per-input-slide tail of `generate_presentation_stream`: select the
layout, add a slide from it, and fill its placeholders. -/
def processSlides (env : ImageEnv) (prs : Pres) :
    List SlideContent → Except GenError Pres
  | [] => .ok prs
  | sd :: rest =>
    match get_layout prs (detect_layout sd) with
    | .error e => .error e
    | .ok lay =>
      match fillContentSlide env (cloneablePlaceholders lay.placeholders) sd with
      | .error e => .error e
      | .ok phs =>
        processSlides env
          { prs with slides := prs.slides ++ [{ layoutName := lay.name, placeholders := phs }] }
          rest

/-! ## Raw input and pydantic validation (`src/schemas.py`) -/

/-- Raw `TextFormatting` data: absent fields take the model defaults. -/
structure RawTextFormatting where
  bold : Option Bool := none
  italic : Option Bool := none
  color : Option String := none
  size : Option Rat := none
deriving DecidableEq, Repr

/-- Validate raw formatting (no field constraints, only defaults). -/
def validateTextFormatting (r : RawTextFormatting) : TextFormatting :=
  { bold := r.bold.getD false, italic := r.italic.getD false,
    color := r.color, size := r.size }

/-- Raw `TextRun` data. -/
structure RawTextRun where
  text : String
  formatting : Option RawTextFormatting := none
  hyperlink : Option String := none
deriving DecidableEq, Repr

/-- Validate a raw text run. -/
def validateTextRun (r : RawTextRun) : TextRun :=
  { text := r.text, formatting := r.formatting.map validateTextFormatting,
    hyperlink := r.hyperlink }

/-- Raw `bullet_points` item: `Union[str, BulletPoint]` (a bare string or
a dict with optional `level` and `formatting`). -/
inductive RawBullet where
  | str (s : String)
  | obj (text : String) (level : Option Int) (formatting : Option RawTextFormatting)
deriving DecidableEq, Repr

/-- Validate one bullet item: `normalize_bullet_points` coerces a bare
string to `BulletPoint(text=item)` (level 0); a dict is validated with the
`0 <= level <= 5` bound. -/
def validateBullet : RawBullet → Except String BulletPoint
  | .str s => .ok { text := s }
  | .obj t lvl fmt =>
    let l := lvl.getD 0
    if 0 ≤ l ∧ l ≤ 5 then .ok { text := t, level := l, formatting := fmt.map validateTextFormatting }
    else .error "bullet level out of range 0-5"

/-- Validate a bullet list, propagating the first field error. -/
def validateBullets : List RawBullet → Except String (List BulletPoint)
  | [] => .ok []
  | b :: rest => do
    let v ← validateBullet b
    let vs ← validateBullets rest
    pure (v :: vs)

/-- Raw `content` field: a plain string, a run list, or a dict with a
`runs` key (which `normalize_content` unwraps). -/
inductive RawContent where
  | str (s : String)
  | runs (rs : List RawTextRun)
  | runsDict (rs : List RawTextRun)
deriving DecidableEq, Repr

/-- Validate the `content` field after `normalize_content`. -/
def validateContent : RawContent → SlideTextContent
  | .str s => .str s
  | .runs rs => .runs (rs.map validateTextRun)
  | .runsDict rs => .runs (rs.map validateTextRun)

/-- Raw `TableData`. -/
structure RawTableData where
  headers : List String
  rows : List (List CellValue)
  style : Option String := none
deriving DecidableEq, Repr

/-- Validate raw table data: `min_length=1` on headers and rows. -/
def validateTableData (r : RawTableData) : Except String TableData :=
  if r.headers.isEmpty then .error "table headers must be nonempty"
  else if r.rows.isEmpty then .error "table rows must be nonempty"
  else .ok { headers := r.headers, rows := r.rows, style := r.style }

/-- Raw `ChartSeries`. -/
structure RawChartSeries where
  name : String
  data : List PyNum
deriving DecidableEq, Repr

/-- Raw `ChartData` (the `type` literal still as a string, or absent). -/
structure RawChartData where
  type : Option String := none
  categories : List String
  series : List RawChartSeries
deriving DecidableEq, Repr

/-- Validate the chart type literal (default `column`). -/
def validateChartType : Option String → Except String ChartType
  | none => .ok .column
  | some "column" => .ok .column
  | some "line" => .ok .line
  | some "pie" => .ok .pie
  | some _ => .error "chart type must be column, line or pie"

/-- Validate raw chart data. -/
def validateChartData (r : RawChartData) : Except String ChartData := do
  let t ← validateChartType r.type
  if r.categories.isEmpty then .error "chart categories must be nonempty"
  else if r.series.isEmpty then .error "chart series must be nonempty"
  else .ok { type := t, categories := r.categories,
             series := r.series.map (fun s => { name := s.name, data := s.data }) }

/-- Raw `ImageData` (the `position` literal still as a string, or absent). -/
structure RawImageData where
  path : String
  position : Option String := none
deriving DecidableEq, Repr

/-- Validate the image position literal (default `right`). -/
def validateImagePosition : Option String → Except String ImagePosition
  | none => .ok .right
  | some "left" => .ok .left
  | some "right" => .ok .right
  | some "full" => .ok .full
  | some _ => .error "image position must be left, right or full"

/-- Validate raw image data. -/
def validateImageData (r : RawImageData) : Except String ImageData := do
  let p ← validateImagePosition r.position
  pure { path := r.path, position := p }

/-- Raw `SlideContent` data. -/
structure RawSlideContent where
  title : String
  content : Option RawContent := none
  bullet_points : Option (List RawBullet) := none
  table : Option RawTableData := none
  chart : Option RawChartData := none
  image : Option RawImageData := none
  layout : Option String := none
deriving DecidableEq, Repr

/-- Validation of one optional field: absent stays absent, present is
validated. -/
def validateOptField (vf : α → Except String β) : Option α → Except String (Option β)
  | none => pure none
  | some x => do
    let v ← vf x
    pure (some v)

/-- Field validation of a raw slide (everything before the model
validator): title length bounds, content normalization, bullet
normalization and bounds, table, chart and image validation. -/
def buildSlide (r : RawSlideContent) : Except String SlideContent := do
  if r.title.length < 1 ∨ 200 < r.title.length then
    Except.error "title must have between 1 and 200 characters"
  else
    let c := r.content.map validateContent
    let bps ← validateOptField validateBullets r.bullet_points
    let tbl ← validateOptField validateTableData r.table
    let cht ← validateOptField validateChartData r.chart
    let img ← validateOptField validateImageData r.image
    pure { title := r.title, content := c, bullet_points := bps, table := tbl,
           chart := cht, image := img, layout := r.layout }

/-- The `validate_has_content` truthiness test
`any([content, bullet_points, table, chart, image])`. -/
def hasContentB (s : SlideContent) : Bool :=
  truthyContent s.content || truthyBullets s.bullet_points ||
    s.table.isSome || s.chart.isSome || s.image.isSome

/-- Full validation of a raw slide: field validation followed by the
`validate_has_content` model validator. -/
def validateSlideContent (r : RawSlideContent) : Except String SlideContent := do
  let s ← buildSlide r
  if hasContentB s then pure s
  else Except.error ("Slide " ++ s.title ++ " must have at least one content element")

/-- Validate a slide list, propagating the first error. -/
def validateSlides : List RawSlideContent → Except String (List SlideContent)
  | [] => .ok []
  | r :: rest => do
    let s ← validateSlideContent r
    let ss ← validateSlides rest
    pure (s :: ss)

/-- Raw `PresentationInput` data. -/
structure RawPresentationInput where
  title : String
  subtitle : Option String := none
  author : Option String := none
  subject : Option String := none
  slides : List RawSlideContent
deriving DecidableEq, Repr

/-- Validate the full raw presentation: title bounds, at least one slide,
and every slide valid. -/
def validatePresentationInput (r : RawPresentationInput) :
    Except String PresentationInput := do
  if r.title.length < 1 ∨ 200 < r.title.length then
    Except.error "title must have between 1 and 200 characters"
  else if r.slides.isEmpty then Except.error "slides must be nonempty"
  else do
    let ss ← validateSlides r.slides
    pure { title := r.title, subtitle := r.subtitle, author := r.author,
           subject := r.subject, slides := ss }

/-! ## `model_dump` (serialization back to raw data) -/

/-- Dump formatting back to raw data (all fields become explicit). -/
def dumpTextFormatting (f : TextFormatting) : RawTextFormatting :=
  { bold := some f.bold, italic := some f.italic, color := f.color, size := f.size }

/-- Dump a text run. -/
def dumpTextRun (r : TextRun) : RawTextRun :=
  { text := r.text, formatting := r.formatting.map dumpTextFormatting,
    hyperlink := r.hyperlink }

/-- Dump a bullet point (always a dict with explicit level). -/
def dumpBullet (b : BulletPoint) : RawBullet :=
  .obj b.text (some b.level) (b.formatting.map dumpTextFormatting)

/-- Dump the content field. -/
def dumpContent : SlideTextContent → RawContent
  | .str s => .str s
  | .runs rs => .runs (rs.map dumpTextRun)

/-- Dump the chart type literal. -/
def dumpChartType : ChartType → String
  | .column => "column"
  | .line => "line"
  | .pie => "pie"

/-- Dump the image position literal. -/
def dumpImagePosition : ImagePosition → String
  | .left => "left"
  | .right => "right"
  | .full => "full"

/-- Dump a slide. -/
def dumpSlideContent (s : SlideContent) : RawSlideContent :=
  { title := s.title,
    content := s.content.map dumpContent,
    bullet_points := s.bullet_points.map (fun l => l.map dumpBullet),
    table := s.table.map (fun t => { headers := t.headers, rows := t.rows, style := t.style }),
    chart := s.chart.map (fun c =>
      { type := some (dumpChartType c.type), categories := c.categories,
        series := c.series.map (fun se => { name := se.name, data := se.data }) }),
    image := s.image.map (fun i => { path := i.path, position := some (dumpImagePosition i.position) }),
    layout := s.layout }

/-- Dump the whole presentation (`model_dump`). -/
def dumpPresentationInput (p : PresentationInput) : RawPresentationInput :=
  { title := p.title, subtitle := p.subtitle, author := p.author,
    subject := p.subject, slides := p.slides.map dumpSlideContent }

/-! ## `generate_presentation_stream` -/

/-- Function `generate_presentation_stream(json_data, template_stream)`: validate,
load the template, clear its pre-existing slides, write the core
properties, build the title slide, then process every input slide. -/
def generate_presentation_stream (env : ImageEnv) (json_data : RawPresentationInput)
    (template : Pres) : Except GenError Pres :=
  match validatePresentationInput json_data with
  | .error e => .error (.validationError e)
  | .ok data =>
    let prs : Pres := { template with slides := [] }
    let prs : Pres :=
      { prs with
        core_title := some data.title,
        core_author := if truthyStr data.author then data.author else prs.core_author,
        core_subject := if truthyStr data.subject then data.subject else prs.core_subject }
    match get_layout prs ((LAYOUTS_lookup "title_slide").getD "") with
    | .error e => .error e
    | .ok lay =>
      let tphs := fillTitleBodies (cloneablePlaceholders lay.placeholders)
        data.title data.subtitle
      let prs : Pres :=
        { prs with slides := prs.slides ++ [{ layoutName := lay.name, placeholders := tphs }] }
      processSlides env prs data.slides

/-! ## Specification-side definitions

These definitions follow the words of the specification (not the source)
and are compared with the source embedding by the refinement theorems. -/

/-- Spec 4.4 tier 1 (remote search): the resulting placeholder content
when the tier does not fail, `none` when it fails (missing credential,
network error, empty result set, failed insertion). -/
def tier1Result (env : ImageEnv) (data : ImageData) : Option ImageFillResult :=
  match fetch_image_from_unsplash env data.path with
  | some bytes =>
    if env.insertOk (.stream bytes) then some (.picture (.stream bytes)) else none
  | none => none

/-- Spec 4.4 tier 2 (local file). -/
def tier2Result (env : ImageEnv) (data : ImageData) : Option ImageFillResult :=
  if env.pathExists data.path && env.insertOk (.file data.path) then
    some (.picture (.file data.path))
  else none

/-- Spec 4.4 tier 3 (fallback asset). -/
def tier3Result (env : ImageEnv) : Option ImageFillResult :=
  if env.pathExists FALLBACK_IMAGE && env.insertOk (.file FALLBACK_IMAGE) then
    some (.picture (.file FALLBACK_IMAGE))
  else none

/-- Spec 4.4 tier 4 (textual stand-in), available when the slot supports
text. -/
def tier4Result (hasTextFrame : Bool) (data : ImageData) : Option ImageFillResult :=
  if hasTextFrame then some (.text ("[IMAGE: " ++ data.path ++ "]")) else none

/-- The image resolver as the spec words it: the first tier (in order
1 to 4) that does not fail determines the final content; if every tier
fails the slot is left untouched. -/
def resolveSpec (env : ImageEnv) (hasTextFrame : Bool) (data : ImageData) :
    ImageFillResult :=
  match tier1Result env data with
  | some r => r
  | none =>
    match tier2Result env data with
    | some r => r
    | none =>
      match tier3Result env with
      | some r => r
      | none =>
        match tier4Result hasTextFrame data with
        | some r => r
        | none => .unchanged

/-- Title-slide filling as the (amended) claim words it: walking the
placeholders in order, the first `PH_BODY` placeholder receives the
presentation title, the second receives the subtitle when the subtitle is
present and nonempty, and nothing else is written. `k` counts the body
placeholders already passed. -/
def titleFillWalk (title : String) (subtitle : Option String) :
    List Placeholder → Nat → List Placeholder
  | [], _ => []
  | ph :: rest, k =>
    if ph.phType == PH_BODY then
      (if k == 0 then { ph with content := textSet title }
       else if k == 1 && truthyStr subtitle then
         { ph with content := textSet (subtitle.getD "") }
       else ph) :: titleFillWalk title subtitle rest (k + 1)
    else ph :: titleFillWalk title subtitle rest k

/-- Entry point of the walk. -/
def titleSlideFillSpec (phs : List Placeholder) (title : String)
    (subtitle : Option String) : List Placeholder :=
  titleFillWalk title subtitle phs 0

/-- A header cell as the claim words it: the header text and, exactly when
the style is `header_colored`, a solid fill color, white font and bold. -/
def specHeaderCell (style : Option String) (h : String) : FilledCell :=
  if style == some "header_colored" then
    { text := h, fillColor := some (0, 51, 102), fontColor := some (255, 255, 255),
      fontBold := some true }
  else { text := h }

/-- A data row of the grid as the claim words it: the string-coerced
values in order, padded with untouched empty cells up to the header
count. -/
def specDataRow (nCols : Nat) (row : List CellValue) : List FilledCell :=
  row.map (fun v => ({ text := pyStr v } : FilledCell)) ++
    List.replicate (nCols - row.length) ({} : FilledCell)

/-- The filled grid as the claim words it: `len(rows)+1` rows and
`len(headers)` columns, row 0 the headers, rows 1..n the data rows in
order. -/
def specTableGrid (data : TableData) : List (List FilledCell) :=
  (data.headers.map (specHeaderCell data.style)) ::
    data.rows.map (specDataRow data.headers.length)

/-- Strip one optional leading `#`. -/
def stripHash : List Char → List Char
  | [] => []
  | c0 :: rest => if c0 == '#' then rest else c0 :: rest

/-- A well-formed color string per the claim: an optional `#` followed by
exactly six hexadecimal digits. -/
def isWellFormedHexColor (c : String) : Bool :=
  let d := stripHash c.toList
  d.length == 6 && d.all isHexDigit

/-! ## Concrete demonstration inputs (used by scenario conjuncts,
witnesses and counterexamples) -/

/-- An environment in which every image tier fails. -/
def offlineEnv : ImageEnv :=
  { search := fun _ => .error "network unreachable",
    fetchUrl := fun _ => .error "network unreachable",
    insertOk := fun _ => false,
    pathExists := fun _ => false }

/-- A minimal template: a title-slide layout with two body placeholders, a
content layout with a title and a body placeholder, and one residual
slide that generation must discard. -/
def demoTemplate : Pres :=
  { slide_layouts :=
      [{ name := "Title Slide",
         placeholders := [{ phType := PH_BODY, idx := 0 }, { phType := PH_BODY, idx := 1 }] },
       { name := "Content Only",
         placeholders := [{ phType := PH_TITLE, idx := 0 }, { phType := PH_BODY, idx := 1 }] }],
    slides := [{ layoutName := "Residual", placeholders := [] }] }

/-- The minimal input of the scenario in the claim. -/
def demoRaw : RawPresentationInput :=
  { title := "T", slides := [{ title := "S1", content := some (.str "hello") }] }

/-- The validated form of `demoRaw`. -/
def demoData : PresentationInput :=
  { title := "T", slides := [{ title := "S1", content := some (.str "hello") }] }

/-- The level bound established by bullet validation. -/
def GoodBullet (b : BulletPoint) : Prop := 0 ≤ b.level ∧ b.level ≤ 5

/-- The invariants of a validated slide. -/
def GoodSlide (s : SlideContent) : Prop :=
  1 ≤ s.title.length ∧ s.title.length ≤ 200 ∧
  (∀ l, s.bullet_points = some l → ∀ b ∈ l, GoodBullet b) ∧
  (∀ t, s.table = some t → t.headers.isEmpty = false ∧ t.rows.isEmpty = false) ∧
  (∀ c, s.chart = some c → c.categories.isEmpty = false ∧ c.series.isEmpty = false) ∧
  hasContentB s = true

/-- The document produced from `demoRaw` and `demoTemplate`. -/
def demoExpected : Pres :=
  { slide_layouts := demoTemplate.slide_layouts,
    slides :=
      [{ layoutName := "Title Slide",
         placeholders :=
           [{ phType := PH_BODY, idx := 0, content := textSet "T" },
            { phType := PH_BODY, idx := 1 }] },
       { layoutName := "Content Only",
         placeholders :=
           [{ phType := PH_TITLE, idx := 0, content := textSet "S1" },
            { phType := PH_BODY, idx := 1, content := textSet "hello" }] }],
    core_title := some "T" }

end PPT

namespace PPT


/-- C1: the layout selector is a deterministic pure function obeying the
precedence chart, then table, then image, then recognized layout hint,
then the `content_only` default; in particular a slide with both a chart
and a table always selects the chart layout. -/
theorem detect_layout_precedence (s : SlideContent) :
    (s.chart.isSome = true → detect_layout s = "Chart") ∧
    (s.chart = none → s.table.isSome = true → detect_layout s = "Table") ∧
    (s.chart = none → s.table = none → ∀ img, s.image = some img →
      detect_layout s = (match img.position with
        | .left => "Image Left"
        | .right => "Image Right"
        | .full => "Image Full")) ∧
    (s.chart = none → s.table = none → s.image = none → ∀ l v, s.layout = some l →
      LAYOUTS_lookup l = some v → detect_layout s = v) ∧
    (s.chart = none → s.table = none → s.image = none →
      (s.layout = none ∨ ∃ l, s.layout = some l ∧ LAYOUTS_lookup l = none) →
      detect_layout s = "Content Only") := by
  refine ⟨?_, ?_, ?_, ?_, ?_⟩
  · intro h
    simp [detect_layout, h]
    rfl
  · intro hc ht
    simp [detect_layout, hc, ht]
    rfl
  · intro hc ht img hi
    simp [detect_layout, hc, ht, hi]
    cases img.position <;> rfl
  · intro hc ht hi l v hl hv
    have hne : (l != "") = true := by
      cases h0 : l == ""
      · simp [bne, h0]
      · have hl0 : l = "" := eq_of_beq h0
        subst hl0
        have hnone : LAYOUTS_lookup "" = none := rfl
        rw [hnone] at hv
        cases hv
    simp [detect_layout, hc, ht, hi, hl, hne, hv]
  · rintro hc ht hi (h | ⟨l, hl, hnone⟩)
    · simp [detect_layout, hc, ht, hi, h]
      rfl
    · simp [detect_layout, hc, ht, hi, hl, hnone]
      rfl

theorem detect_layout_precedence_witness :
    detect_layout { title := "w", chart := some { categories := ["a"], series := [{ name := "s", data := [] }] }, table := some { headers := ["h"], rows := [[.i 1]] } } = "Chart" ∧
    detect_layout { title := "w", layout := some "two_columns" } = "Two Columns" := by
  constructor
  · exact (detect_layout_precedence _).1 rfl
  · exact (detect_layout_precedence _).2.2.2.1 rfl rfl rfl "two_columns" "Two Columns"
      rfl rfl

/-- C7: layout lookup either returns the layout whose name matches the
request exactly, or fails with an error carrying the list of all
available layout names; it never silently substitutes another layout. -/
theorem get_layout_exact (prs : Pres) (name : String) :
    (∀ lay, get_layout prs name = .ok lay → lay.name = name ∧ lay ∈ prs.slide_layouts) ∧
    ((∃ lay ∈ prs.slide_layouts, lay.name = name) →
      ∃ lay, get_layout prs name = .ok lay ∧ lay.name = name) ∧
    ((∀ lay ∈ prs.slide_layouts, lay.name ≠ name) →
      get_layout prs name =
        .error (.layoutNotFound name (prs.slide_layouts.map (fun l => l.name)))) := by
  refine ⟨?_, ?_, ?_⟩
  · intro lay h
    unfold get_layout at h
    cases hf : prs.slide_layouts.find? (fun l => l.name == name) with
    | none => rw [hf] at h; cases h
    | some l =>
      rw [hf] at h
      cases h
      have hp := List.find?_some hf
      have hp2 : (lay.name == name) = true := hp
      exact ⟨eq_of_beq hp2, List.mem_of_find?_eq_some hf⟩
  · rintro ⟨lay, hmem, hname⟩
    cases hf : prs.slide_layouts.find? (fun l => l.name == name) with
    | some l =>
      have hp := List.find?_some hf
      have hp2 : (l.name == name) = true := hp
      exact ⟨l, by unfold get_layout; rw [hf], eq_of_beq hp2⟩
    | none =>
      exfalso
      have h2 := List.find?_eq_none.mp hf lay hmem
      simp [hname] at h2
  · intro h
    unfold get_layout
    cases hf : prs.slide_layouts.find? (fun l => l.name == name) with
    | some l =>
      have hp := List.find?_some hf
      have hp2 : (l.name == name) = true := hp
      exact absurd (eq_of_beq hp2) (h l (List.mem_of_find?_eq_some hf))
    | none => rfl

theorem get_layout_exact_witness :
    (∃ lay, get_layout demoTemplate "Content Only" = .ok lay ∧
      lay.name = "Content Only") ∧
    get_layout demoTemplate "Nope" =
      .error (.layoutNotFound "Nope" ["Title Slide", "Content Only"]) := by
  constructor
  · exact (get_layout_exact demoTemplate "Content Only").2.1
      ⟨{ name := "Content Only",
         placeholders := [{ phType := PH_TITLE, idx := 0 }, { phType := PH_BODY, idx := 1 }] },
        by decide, rfl⟩
  · exact (get_layout_exact demoTemplate "Nope").2.2 (by decide)

/-- C4: the image resolver equals the specification-side fallback chain:
exactly the first tier (remote search, local file, fallback asset,
textual stand-in) that does not fail determines the final content, no
tier failure escapes to the caller (the function is total), and when the
three image tiers all fail and the slot supports text the slot receives
the literal text built from the request path. -/
theorem image_fallback_chain (env : ImageEnv) (hasTF : Bool) (data : ImageData) :
    fill_image env hasTF data = resolveSpec env hasTF data ∧
    (tier1Result env data = none → tier2Result env data = none →
      tier3Result env = none → hasTF = true →
      fill_image env hasTF data = .text ("[IMAGE: " ++ data.path ++ "]")) := by
  have hmain : fill_image env hasTF data = resolveSpec env hasTF data := by
    unfold fill_image resolveSpec tier1Result tier2Result tier3Result tier4Result
    cases fetch_image_from_unsplash env data.path <;>
      simp <;> split_ifs <;> simp_all
  refine ⟨hmain, ?_⟩
  intro h1 h2 h3 h4
  rw [hmain]
  unfold resolveSpec
  rw [h1, h2, h3]
  simp [tier4Result, h4]

theorem image_fallback_chain_witness :
    fill_image offlineEnv true { path := "pic" } = .text "[IMAGE: pic]" :=
  (image_fallback_chain offlineEnv true { path := "pic" }).2 rfl rfl rfl rfl

lemma mem_hexDigits (c : Char) (h : isHexDigit c = true) : c ∈ hexDigits := by
  simpa [isHexDigit] using h

lemma hexChar_props (c : Char) (h : isHexDigit c = true) :
    c.isWhitespace = false ∧ (c == '#') = false ∧ (c == '+') = false ∧
    (c == '-') = false ∧ (c == '_') = false ∧ (c == 'x') = false ∧
    (c == 'X') = false ∧ hexVal c ≤ 15 := by
  have hm : c ∈ hexDigits := mem_hexDigits c h
  fin_cases hm <;> exact ⟨rfl, rfl, rfl, rfl, rfl, rfl, rfl, by decide⟩

lemma pyIntHex_pair (a b : Char) (ha : isHexDigit a = true) (hb : isHexDigit b = true) :
    pyIntHex [a, b] = some ((hexVal a * 16 + hexVal b : Nat) : Int) := by
  obtain ⟨hwa, hsa, hpa, hma, hua, hxa, hXa, -⟩ := hexChar_props a ha
  obtain ⟨hwb, hsb, hpb, hmb, hub, hxb, hXb, -⟩ := hexChar_props b hb
  simp [pyIntHex, hexAfterSign, hexBody, hexTail, List.dropWhile, hwa, hwb,
    hpa, hma, hua, hub, hxb, hXb, ha, hb]

lemma six_chars (l : List Char) (h : l.length = 6) :
    ∃ a1 a2 a3 a4 a5 a6, l = [a1, a2, a3, a4, a5, a6] := by
  rcases l with - | ⟨a1, - | ⟨a2, - | ⟨a3, - | ⟨a4, - | ⟨a5, - | ⟨a6, rest⟩⟩⟩⟩⟩⟩ <;>
    simp_all

lemma hex_to_rgb_wellformed (c : String) (h : isWellFormedHexColor c = true) :
    ∃ rgb, hex_to_rgb c = .ok rgb := by
  unfold isWellFormedHexColor at h
  rw [Bool.and_eq_true, beq_iff_eq] at h
  obtain ⟨hlen, hall⟩ := h
  obtain ⟨a1, a2, a3, a4, a5, a6, hd⟩ := six_chars _ hlen
  rw [hd] at hall
  simp only [List.all_cons, List.all_nil, Bool.and_eq_true, Bool.and_true] at hall
  obtain ⟨h1, h2, h3, h4, h5, h6⟩ := hall
  have hdrop : c.toList.dropWhile (fun x => x == '#') = [a1, a2, a3, a4, a5, a6] := by
    obtain ⟨-, hs1, -⟩ := hexChar_props a1 h1
    rcases hl : c.toList with - | ⟨c0, rest⟩
    · rw [hl] at hd; simp [stripHash] at hd
    · rw [hl] at hd
      simp only [stripHash] at hd
      by_cases h0 : (c0 == '#') = true
      · rw [if_pos h0] at hd
        subst hd
        have hc0 : c0 = '#' := eq_of_beq h0
        subst hc0
        simp [List.dropWhile, hs1]
      · rw [if_neg h0] at hd
        rw [Bool.not_eq_true] at h0
        rw [hd]
        simp [List.dropWhile, hs1]
  unfold hex_to_rgb
  have s1 : pySlice [a1, a2, a3, a4, a5, a6] 0 2 = [a1, a2] := rfl
  have s2 : pySlice [a1, a2, a3, a4, a5, a6] 2 4 = [a3, a4] := rfl
  have s3 : pySlice [a1, a2, a3, a4, a5, a6] 4 6 = [a5, a6] := rfl
  simp only [hdrop, s1, s2, s3, pyIntHex_pair a1 a2 h1 h2, pyIntHex_pair a3 a4 h3 h4,
    pyIntHex_pair a5 a6 h5 h6]
  obtain ⟨-, -, -, -, -, -, -, b1⟩ := hexChar_props a1 h1
  obtain ⟨-, -, -, -, -, -, -, b2⟩ := hexChar_props a2 h2
  obtain ⟨-, -, -, -, -, -, -, b3⟩ := hexChar_props a3 h3
  obtain ⟨-, -, -, -, -, -, -, b4⟩ := hexChar_props a4 h4
  obtain ⟨-, -, -, -, -, -, -, b5⟩ := hexChar_props a5 h5
  obtain ⟨-, -, -, -, -, -, -, b6⟩ := hexChar_props a6 h6
  unfold RGBColor
  simp only [bind, Except.bind]
  rw [if_pos]
  · exact ⟨_, rfl⟩
  · refine ⟨?_, ?_, ?_, ?_, ?_, ?_⟩ <;> omega


/-- C10: applying text formatting succeeds for every color that is an
optional hash sign followed by exactly six hexadecimal digits; it raises
an error for colors given as a word or a three-digit form, which the
schema nevertheless accepts since it does not constrain the color
format. -/
theorem apply_formatting_color :
    (∀ (run : Run) (fmt : TextFormatting) (c : String), fmt.color = some c →
      isWellFormedHexColor c = true → ∃ out, apply_formatting run fmt = .ok out) ∧
    (∀ (run : Run) (fmt : TextFormatting), fmt.color = some "red" →
      ∃ e, apply_formatting run fmt = .error e) ∧
    (∀ (run : Run) (fmt : TextFormatting), fmt.color = some "#FFF" →
      ∃ e, apply_formatting run fmt = .error e) ∧
    (∀ c : String, validateTextFormatting { color := some c } =
      { bold := false, italic := false, color := some c, size := none }) := by
  refine ⟨?_, ?_, ?_, fun c => rfl⟩
  · intro run fmt c hc hwf
    obtain ⟨rgb, hrgb⟩ := hex_to_rgb_wellformed c hwf
    have hcne : c ≠ "" := by
      intro he
      subst he
      simp [isWellFormedHexColor, stripHash] at hwf
    have hne : (c != "") = true := by simpa using hcne
    unfold apply_formatting
    rw [hc]
    simp only [hne, if_true, hrgb, bind, Except.bind]
    cases fmt.size <;> simp <;> split_ifs <;> exact ⟨_, rfl⟩
  · intro run fmt hc
    have hred : hex_to_rgb "red" =
        Except.error "ValueError: invalid literal for int with base 16" := rfl
    unfold apply_formatting
    rw [hc]
    simp only [hred, bind, Except.bind]
    exact ⟨_, rfl⟩
  · intro run fmt hc
    have hfff : hex_to_rgb "#FFF" =
        Except.error "ValueError: invalid literal for int with base 16" := rfl
    unfold apply_formatting
    rw [hc]
    simp only [hfff, bind, Except.bind]
    exact ⟨_, rfl⟩


/-- C5 counterexample: a raw slide whose content element is present but
empty (the empty string) fails validation, refuting the claim that a
slide with at least one of the five elements present passes the
has-content check. -/
theorem has_content_truthiness_counterexample :
    validateSlideContent { title := "S", content := some (.str "") } =
      .error "Slide S must have at least one content element" ∧
    ({ title := "S", content := some (.str "") } : RawSlideContent).content.isSome = true :=
  ⟨rfl, rfl⟩

/-- C5 (amended): after field validation succeeds, the slide passes the
has-content model validator exactly when at least one of content,
bullet points, table, chart or image is present and truthy (non-empty);
otherwise validation fails and no slide model is produced. -/
theorem has_content_check (raw : RawSlideContent) (s : SlideContent)
    (h : buildSlide raw = .ok s) :
    validateSlideContent raw =
      (if hasContentB s then .ok s
       else .error ("Slide " ++ s.title ++ " must have at least one content element")) := by
  unfold validateSlideContent
  rw [h]
  simp only [bind, Except.bind]
  split_ifs <;> rfl

theorem has_content_check_witness :
    validateSlideContent { title := "S", content := some (.str "hi") } =
      .ok { title := "S", content := some (.str "hi") } := by
  rw [has_content_check { title := "S", content := some (.str "hi") }
    { title := "S", content := some (.str "hi") } rfl]
  rfl

lemma bodyPositions_shift (l : List Placeholder) (i : Nat) :
    bodyPositions l (i + 1) = (bodyPositions l i).map Nat.succ := by
  induction l generalizing i with
  | nil => rfl
  | cons ph tail ih =>
    by_cases hb : (ph.phType == PH_BODY) = true
    · simp [bodyPositions, hb, ih (i + 1)]
    · simp only [Bool.not_eq_true] at hb
      simp [bodyPositions, hb, ih (i + 1)]

lemma titleFillWalk_no_body (t : String) (s : Option String) (l : List Placeholder)
    (k : Nat) (h : bodyPositions l 0 = []) : titleFillWalk t s l k = l := by
  induction l generalizing k with
  | nil => rfl
  | cons ph tail ih =>
    by_cases hb : (ph.phType == PH_BODY) = true
    · simp [bodyPositions, hb] at h
    · simp only [Bool.not_eq_true] at hb
      simp only [bodyPositions, hb, Bool.false_eq_true, if_false] at h
      rw [bodyPositions_shift] at h
      simp only [List.map_eq_nil_iff] at h
      simp [titleFillWalk, hb, ih k h]

lemma titleFillWalk_ge2 (t : String) (s : Option String) (l : List Placeholder)
    (k : Nat) (h : 2 ≤ k) : titleFillWalk t s l k = l := by
  induction l generalizing k with
  | nil => rfl
  | cons ph tail ih =>
    by_cases hb : (ph.phType == PH_BODY) = true
    · have h0 : (k == 0) = false := by simp; omega
      have h1 : (k == 1) = false := by simp; omega
      simp [titleFillWalk, hb, h0, h1, ih (k + 1) (by omega)]
    · simp only [Bool.not_eq_true] at hb
      simp [titleFillWalk, hb, ih k h]

lemma titleFillWalk_second (t : String) (s : Option String) (l : List Placeholder)
    (j : Nat) (rest : List Nat) (h : bodyPositions l 0 = j :: rest) :
    titleFillWalk t s l 1 =
      (if truthyStr s then
        listModify l j (fun ph => { ph with content := textSet (s.getD "") })
      else l) := by
  induction l generalizing j rest with
  | nil => simp [bodyPositions] at h
  | cons ph tail ih =>
    by_cases hb : (ph.phType == PH_BODY) = true
    · have h2 : bodyPositions (ph :: tail) 0 = 0 :: (bodyPositions tail 0).map Nat.succ := by
        simp [bodyPositions, hb, bodyPositions_shift]
      rw [h2] at h
      obtain ⟨hj, -⟩ : j = 0 ∧ rest = (bodyPositions tail 0).map Nat.succ :=
        ⟨(List.cons.injEq .. ▸ h.symm).1, (List.cons.injEq .. ▸ h.symm).2⟩
      subst hj
      have hge := titleFillWalk_ge2 t s tail 2 (by omega)
      by_cases hs : truthyStr s = true
      · simp [titleFillWalk, hb, hs, hge, listModify]
      · simp only [Bool.not_eq_true] at hs
        simp [titleFillWalk, hb, hs, hge]
    · simp only [Bool.not_eq_true] at hb
      have h2 : bodyPositions (ph :: tail) 0 = (bodyPositions tail 0).map Nat.succ := by
        simp [bodyPositions, hb, bodyPositions_shift]
      rw [h2] at h
      cases hbt : bodyPositions tail 0 with
      | nil => rw [hbt] at h; simp at h
      | cons j2 rest2 =>
        rw [hbt] at h
        simp only [List.map_cons] at h
        obtain ⟨hj, -⟩ : j = j2.succ ∧ rest = rest2.map Nat.succ :=
          ⟨(List.cons.injEq .. ▸ h.symm).1, (List.cons.injEq .. ▸ h.symm).2⟩
        subst hj
        have ihh := ih j2 rest2 hbt
        by_cases hs : truthyStr s = true
        · simp only [hs, if_true] at ihh
          simp [titleFillWalk, hb, hs, ihh, listModify]
        · simp only [Bool.not_eq_true] at hs
          simp only [hs, Bool.false_eq_true, if_false] at ihh
          simp [titleFillWalk, hb, hs, ihh]

/-- C8 (amended): title-slide filling equals the specification-side walk:
the first placeholder of type `PH_BODY` receives the presentation title,
the second receives the subtitle when the subtitle is present and
nonempty, and no other placeholder is written. -/
theorem title_slide_fill (phs : List Placeholder) (t : String) (s : Option String) :
    fillTitleBodies phs t s = titleSlideFillSpec phs t s := by
  induction phs with
  | nil => rfl
  | cons ph tail ih =>
    unfold titleSlideFillSpec at ih ⊢
    by_cases hb : (ph.phType == PH_BODY) = true
    · have h2 : bodyPositions (ph :: tail) 0 = 0 :: (bodyPositions tail 0).map Nat.succ := by
        simp [bodyPositions, hb, bodyPositions_shift]
      cases hbt : bodyPositions tail 0 with
      | nil =>
        have hnb := titleFillWalk_no_body t s tail 1 hbt
        unfold fillTitleBodies
        rw [h2, hbt]
        simp [titleFillWalk, hb, hnb, listModify]
      | cons j rest =>
        have hsec := titleFillWalk_second t s tail j rest hbt
        unfold fillTitleBodies
        rw [h2, hbt]
        by_cases hs : truthyStr s = true
        · simp only [hs, if_true] at hsec
          simp [titleFillWalk, hb, hs, hsec, listModify]
        · simp only [Bool.not_eq_true] at hs
          simp only [hs, Bool.false_eq_true, if_false] at hsec
          simp [titleFillWalk, hb, hs, hsec, listModify]
    · simp only [Bool.not_eq_true] at hb
      have h2 : bodyPositions (ph :: tail) 0 = (bodyPositions tail 0).map Nat.succ := by
        simp [bodyPositions, hb, bodyPositions_shift]
      have hwalk : titleFillWalk t s (ph :: tail) 0 = ph :: titleFillWalk t s tail 0 := by
        simp [titleFillWalk, hb]
      cases hbt : bodyPositions tail 0 with
      | nil =>
        unfold fillTitleBodies at ih ⊢
        rw [h2, hbt]
        rw [hbt] at ih
        simp only [List.map_nil]
        rw [hwalk, ← ih]
      | cons j rest =>
        cases rest with
        | nil =>
          unfold fillTitleBodies at ih ⊢
          rw [h2, hbt]
          rw [hbt] at ih
          simp only [List.map_cons, List.map_nil]
          rw [hwalk, ← ih]
          simp [listModify]
        | cons j2 rest2 =>
          unfold fillTitleBodies at ih ⊢
          rw [h2, hbt]
          rw [hbt] at ih
          simp only [List.map_cons]
          rw [hwalk, ← ih]
          by_cases hs : truthyStr s = true
          · simp [hs, listModify]
          · simp only [Bool.not_eq_true] at hs
            simp [hs, listModify]


/-- C8 counterexample: on a title-slide layout whose first body-role
placeholder is an object placeholder, that first body-role placeholder
does not receive the presentation title (it stays empty), refuting the
claim as stated for body-role (body or object) placeholders. -/
theorem title_slide_body_role_counterexample :
    ((fillTitleBodies
        [{ phType := PH_OBJECT, idx := 0 }, { phType := PH_BODY, idx := 1 }]
        "T" (some "S")).filter bodyRoleB).head?.map (fun ph => ph.content) =
      some PHContent.empty ∧
    PHContent.empty ≠ textSet "T" :=
  ⟨rfl, fun h => PHContent.noConfusion h⟩

lemma listModify_append (A B : List α) (n : Nat) (f : α → α) :
    listModify (A ++ B) (A.length + n) f = A ++ listModify B n f := by
  induction A with
  | nil => simp
  | cons a A ih =>
    have harith : (a :: A).length + n = (A.length + n) + 1 := by simp; omega
    rw [harith]
    show a :: listModify (A ++ B) (A.length + n) f = a :: (A ++ listModify B n f)
    rw [ih]

lemma get?_append_cons (A : List α) (b : α) (B : List α) :
    (A ++ b :: B).get? A.length = some b := by
  induction A with
  | nil => rfl
  | cons a A ih => simpa [List.get?] using ih

lemma modifyCell_ok (g : List (List FilledCell)) (r c : Nat) (row : List FilledCell)
    (f : FilledCell → FilledCell) (hr : g.get? r = some row) (hc : c < row.length) :
    modifyCell g r c f = .ok (listModify g r (fun row => listModify row c f)) := by
  unfold modifyCell
  simp only [hr]
  rw [if_pos hc]

lemma setHeaderCell_empty (style : Option String) (h : String) :
    setHeaderCell style h {} = specHeaderCell style h := by
  unfold setHeaderCell specHeaderCell
  split_ifs <;> rfl

lemma fillHeaderLoop_write (style : Option String) (hs : List String)
    (A : List FilledCell) (m : Nat) (rest : List (List FilledCell))
    (h : hs.length ≤ m) :
    fillHeaderLoop style ((A ++ List.replicate m ({} : FilledCell)) :: rest) A.length hs =
      .ok ((A ++ hs.map (fun x => specHeaderCell style x) ++
            List.replicate (m - hs.length) ({} : FilledCell)) :: rest) := by
  induction hs generalizing A m with
  | nil => simp [fillHeaderLoop]
  | cons hd tl ih =>
    cases m with
    | zero => simp at h
    | succ m2 =>
      have hlt : A.length < (A ++ List.replicate (m2 + 1) ({} : FilledCell)).length := by
        simp
      have hrow : listModify (A ++ List.replicate (m2 + 1) ({} : FilledCell)) A.length
          (setHeaderCell style hd) =
          (A ++ [specHeaderCell style hd]) ++ List.replicate m2 ({} : FilledCell) := by
        have hrep : (List.replicate (m2 + 1) ({} : FilledCell)) =
            ({} : FilledCell) :: List.replicate m2 ({} : FilledCell) := rfl
        rw [hrep, show A.length = A.length + 0 from rfl, listModify_append]
        simp [listModify, setHeaderCell_empty]
      unfold fillHeaderLoop
      rw [modifyCell_ok ((A ++ List.replicate (m2 + 1) ({} : FilledCell)) :: rest) 0 A.length
        (A ++ List.replicate (m2 + 1) ({} : FilledCell)) (setHeaderCell style hd) rfl hlt]
      simp only [bind, Except.bind]
      have hgrid : listModify ((A ++ List.replicate (m2 + 1) ({} : FilledCell)) :: rest) 0
          (fun row => listModify row A.length (setHeaderCell style hd)) =
          ((A ++ [specHeaderCell style hd]) ++ List.replicate m2 ({} : FilledCell)) :: rest := by
        simp only [listModify]
        rw [hrow]
      rw [hgrid]
      have hidx : A.length + 1 = (A ++ [specHeaderCell style hd]).length := by simp
      rw [hidx, ih (A ++ [specHeaderCell style hd]) m2 (by simpa using h)]
      simp [List.append_assoc]

lemma fillRowLoop_write (vs : List CellValue) (A : List FilledCell) (m : Nat)
    (G1 G2 : List (List FilledCell)) (h : vs.length ≤ m) :
    fillRowLoop (G1 ++ (A ++ List.replicate m ({} : FilledCell)) :: G2) G1.length A.length vs =
      .ok (G1 ++ (A ++ vs.map (fun v => ({ text := pyStr v } : FilledCell)) ++
            List.replicate (m - vs.length) ({} : FilledCell)) :: G2) := by
  induction vs generalizing A m with
  | nil => simp [fillRowLoop]
  | cons v tl ih =>
    cases m with
    | zero => simp at h
    | succ m2 =>
      have hlt : A.length < (A ++ List.replicate (m2 + 1) ({} : FilledCell)).length := by
        simp
      have hrow : listModify (A ++ List.replicate (m2 + 1) ({} : FilledCell)) A.length
          (fun c => { c with text := pyStr v }) =
          (A ++ [({ text := pyStr v } : FilledCell)]) ++ List.replicate m2 ({} : FilledCell) := by
        have hrep : (List.replicate (m2 + 1) ({} : FilledCell)) =
            ({} : FilledCell) :: List.replicate m2 ({} : FilledCell) := rfl
        rw [hrep, show A.length = A.length + 0 from rfl, listModify_append]
        simp [listModify]
      unfold fillRowLoop
      rw [modifyCell_ok _ G1.length A.length (A ++ List.replicate (m2 + 1) ({} : FilledCell))
        (fun c => { c with text := pyStr v }) (get?_append_cons G1 _ G2) hlt]
      simp only [bind, Except.bind]
      have hgrid : listModify (G1 ++ (A ++ List.replicate (m2 + 1) ({} : FilledCell)) :: G2)
          G1.length
          (fun row => listModify row A.length (fun c => { c with text := pyStr v })) =
          G1 ++ ((A ++ [({ text := pyStr v } : FilledCell)]) ++
            List.replicate m2 ({} : FilledCell)) :: G2 := by
        rw [show G1.length = G1.length + 0 from rfl, listModify_append]
        simp only [listModify]
        rw [hrow]
      rw [hgrid]
      have hidx : A.length + 1 = (A ++ [({ text := pyStr v } : FilledCell)]).length := by simp
      rw [hidx, ih (A ++ [({ text := pyStr v } : FilledCell)]) m2 (by simpa using h)]
      simp [List.append_assoc]

lemma fillRowsLoop_write (rs : List (List CellValue)) (G1 : List (List FilledCell))
    (nCols : Nat) (h : ∀ r ∈ rs, r.length ≤ nCols) :
    fillRowsLoop (G1 ++ List.replicate rs.length (List.replicate nCols ({} : FilledCell)))
      G1.length rs = .ok (G1 ++ rs.map (specDataRow nCols)) := by
  induction rs generalizing G1 with
  | nil => simp [fillRowsLoop]
  | cons r tl ih =>
    unfold fillRowsLoop
    have hexp : List.replicate (r :: tl).length (List.replicate nCols ({} : FilledCell)) =
        (List.replicate nCols ({} : FilledCell)) ::
          List.replicate tl.length (List.replicate nCols ({} : FilledCell)) := rfl
    rw [hexp]
    have hrowcall := fillRowLoop_write r [] nCols G1
      (List.replicate tl.length (List.replicate nCols ({} : FilledCell)))
      (h r (List.mem_cons_self r tl))
    simp only [List.nil_append, List.length_nil] at hrowcall
    rw [hrowcall]
    simp only [bind, Except.bind]
    have hassoc : G1 ++ (r.map (fun v => ({ text := pyStr v } : FilledCell)) ++
          List.replicate (nCols - r.length) ({} : FilledCell)) ::
          List.replicate tl.length (List.replicate nCols ({} : FilledCell)) =
        (G1 ++ [r.map (fun v => ({ text := pyStr v } : FilledCell)) ++
          List.replicate (nCols - r.length) ({} : FilledCell)]) ++
          List.replicate tl.length (List.replicate nCols ({} : FilledCell)) := by
      simp
    have hidx : G1.length + 1 =
        (G1 ++ [r.map (fun v => ({ text := pyStr v } : FilledCell)) ++
          List.replicate (nCols - r.length) ({} : FilledCell)]).length := by simp
    rw [hassoc, hidx, ih _ (fun x hx => h x (List.mem_cons_of_mem r hx))]
    simp [specDataRow, List.append_assoc]

/-- C6 (amended): for a table whose rows are each at most as wide as the
header list, the filled placeholder holds a grid of `len(rows)+1` rows by
`len(headers)` columns, with row 0 the headers and rows 1..n the
string-coerced data values in order, and the header cells carry the
solid fill, white font and bold exactly when the style is
`header_colored`. -/
theorem fill_table_grid (data : TableData)
    (h : ∀ r ∈ data.rows, r.length ≤ data.headers.length) :
    fill_table data = .ok (specTableGrid data) := by
  simp only [fill_table, insert_table]
  have hexp : List.replicate (data.rows.length + 1)
      (List.replicate data.headers.length ({} : FilledCell)) =
      (List.replicate data.headers.length ({} : FilledCell)) ::
        List.replicate data.rows.length
          (List.replicate data.headers.length ({} : FilledCell)) := by
    rw [List.replicate_succ]
  rw [hexp]
  have hh := fillHeaderLoop_write data.style data.headers [] data.headers.length
    (List.replicate data.rows.length (List.replicate data.headers.length ({} : FilledCell)))
    (le_refl _)
  simp only [List.nil_append, List.length_nil, Nat.sub_self, List.replicate_zero,
    List.append_nil] at hh
  rw [hh]
  simp only [bind, Except.bind]
  have hrows := fillRowsLoop_write data.rows
    [data.headers.map (fun x => specHeaderCell data.style x)] data.headers.length h
  simp only [List.singleton_append, List.length_singleton] at hrows
  rw [hrows]
  rfl

/-- C6 counterexample: a table whose data row is longer than the header
list makes `fill_table` raise `IndexError`, so no grid is produced,
refuting the claim for arbitrary `TableSpec` values. -/
theorem fill_table_ragged_counterexample :
    fill_table { headers := ["A"], rows := [[.i 1, .i 2]] } = .error "IndexError" := rfl

theorem fill_table_grid_witness :
    fill_table { headers := ["A", "B"], rows := [[.i 1, .i 2]], style := some "header_colored" } =
      .ok (specTableGrid
        { headers := ["A", "B"], rows := [[.i 1, .i 2]], style := some "header_colored" }) :=
  fill_table_grid _ (by decide)


lemma except_bind_ok {α β : Type} {e : Except String α} {f : α → Except String β} {b : β}
    (h : (e >>= f) = .ok b) : ∃ a, e = .ok a ∧ f a = .ok b := by
  cases e with
  | error msg => simp [bind, Except.bind] at h
  | ok a => exact ⟨a, rfl, by simpa [bind, Except.bind] using h⟩

lemma validateOptField_ok {α β : Type} {vf : α → Except String β} {fld : Option α}
    {res : Option β} (h : validateOptField vf fld = .ok res) :
    (fld = none ∧ res = none) ∨ ∃ x v, fld = some x ∧ vf x = .ok v ∧ res = some v := by
  cases fld with
  | none =>
    left
    refine ⟨rfl, ?_⟩
    unfold validateOptField at h
    injection h with h2
    exact h2.symm
  | some x =>
    right
    unfold validateOptField at h
    obtain ⟨v, hv, hp⟩ := except_bind_ok h
    injection hp with hp2
    exact ⟨x, v, rfl, hv, hp2.symm⟩

lemma validateTextFormatting_dump (f : TextFormatting) :
    validateTextFormatting (dumpTextFormatting f) = f := rfl

lemma validateTextRun_dump (r : TextRun) : validateTextRun (dumpTextRun r) = r := by
  cases r with
  | mk t fmt link => cases fmt <;> rfl

lemma validateContent_dump (c : SlideTextContent) : validateContent (dumpContent c) = c := by
  cases c with
  | str s => rfl
  | runs rs =>
    simp only [dumpContent, validateContent, List.map_map]
    congr 1
    have hcomp : validateTextRun ∘ dumpTextRun = id := funext validateTextRun_dump
    rw [hcomp, List.map_id]

lemma validateBullet_good {b : RawBullet} {v : BulletPoint}
    (h : validateBullet b = .ok v) : GoodBullet v := by
  cases b with
  | str s =>
    simp only [validateBullet] at h
    injection h with h2
    subst h2
    exact ⟨by norm_num, by norm_num⟩
  | obj t lvl fmt =>
    simp only [validateBullet] at h
    split_ifs at h with hcond
    rw [Except.ok.injEq] at h
    rw [← h]
    exact hcond

lemma validateBullet_dump {v : BulletPoint} (h : GoodBullet v) :
    validateBullet (dumpBullet v) = .ok v := by
  cases v with
  | mk t l f =>
    have h2 : (0 : Int) ≤ l ∧ l ≤ 5 := h
    simp only [dumpBullet, validateBullet, Option.getD_some]
    rw [if_pos h2]
    cases f <;> rfl

lemma validateBullets_good : ∀ {l : List RawBullet} {vs : List BulletPoint},
    validateBullets l = .ok vs → ∀ v ∈ vs, GoodBullet v := by
  intro l
  induction l with
  | nil =>
    intro vs h v hv
    unfold validateBullets at h
    injection h with h2
    subst h2
    cases hv
  | cons b rest ih =>
    intro vs h v hv
    unfold validateBullets at h
    obtain ⟨v1, hv1, h⟩ := except_bind_ok h
    obtain ⟨vrest, hvrest, h⟩ := except_bind_ok h
    injection h with h2
    subst h2
    rcases List.mem_cons.mp hv with rfl | hmem
    · exact validateBullet_good hv1
    · exact ih hvrest v hmem

lemma validateBullets_dump : ∀ {vs : List BulletPoint},
    (∀ v ∈ vs, GoodBullet v) → validateBullets (vs.map dumpBullet) = .ok vs := by
  intro vs
  induction vs with
  | nil => intro _; rfl
  | cons v rest ih =>
    intro h
    simp only [List.map_cons]
    unfold validateBullets
    rw [validateBullet_dump (h v (List.mem_cons_self v rest))]
    simp only [bind, Except.bind]
    rw [ih (fun x hx => h x (List.mem_cons_of_mem v hx))]
    rfl

lemma validateTableData_inv {r : RawTableData} {t : TableData}
    (h : validateTableData r = .ok t) :
    t = { headers := r.headers, rows := r.rows, style := r.style } ∧
    r.headers.isEmpty = false ∧ r.rows.isEmpty = false := by
  unfold validateTableData at h
  split_ifs at h with h1 h2
  rw [Except.ok.injEq] at h
  exact ⟨h.symm, by simpa using h1, by simpa using h2⟩

lemma validateTableData_dump {t : TableData} (h1 : t.headers.isEmpty = false)
    (h2 : t.rows.isEmpty = false) :
    validateTableData { headers := t.headers, rows := t.rows, style := t.style } = .ok t := by
  unfold validateTableData
  rw [if_neg (by simp [h1]), if_neg (by simp [h2])]

lemma validateChartType_dump (ct : ChartType) :
    validateChartType (some (dumpChartType ct)) = .ok ct := by
  cases ct <;> rfl

lemma validateChartData_inv {r : RawChartData} {c : ChartData}
    (h : validateChartData r = .ok c) :
    c.categories.isEmpty = false ∧ c.series.isEmpty = false := by
  unfold validateChartData at h
  obtain ⟨t, ht, h⟩ := except_bind_ok h
  split_ifs at h with h1 h2
  rw [Except.ok.injEq] at h
  rw [← h]
  constructor
  · simpa using h1
  · cases hs : r.series with
    | nil => rw [hs] at h2; exact absurd rfl h2
    | cons a l => simp [hs]

lemma validateChartData_dump {c : ChartData} (h1 : c.categories.isEmpty = false)
    (h2 : c.series.isEmpty = false) :
    validateChartData
      { type := some (dumpChartType c.type), categories := c.categories,
        series := c.series.map (fun se => { name := se.name, data := se.data }) } =
      .ok c := by
  unfold validateChartData
  rw [validateChartType_dump]
  simp only [bind, Except.bind]
  rw [if_neg (by simp [h1]), if_neg ?hser]
  case hser =>
    cases hs : c.series with
    | nil => rw [hs] at h2; cases h2
    | cons a l => simp
  have hser2 : (c.series.map (fun se => ({ name := se.name, data := se.data } : RawChartSeries))).map
      (fun s => ({ name := s.name, data := s.data } : ChartSeries)) = c.series := by
    rw [List.map_map]
    have hcomp : ((fun s : RawChartSeries => ({ name := s.name, data := s.data } : ChartSeries)) ∘
        (fun se : ChartSeries => ({ name := se.name, data := se.data } : RawChartSeries))) = id := rfl
    rw [hcomp, List.map_id]
  rw [hser2]

lemma validateImageData_dump (i : ImageData) :
    validateImageData { path := i.path, position := some (dumpImagePosition i.position) } =
      .ok i := by
  cases i with
  | mk p pos => cases pos <;> rfl


lemma validateSlideContent_good {r : RawSlideContent} {s : SlideContent}
    (h : validateSlideContent r = .ok s) : GoodSlide s := by
  unfold validateSlideContent at h
  obtain ⟨s0, hbuild, hif⟩ := except_bind_ok h
  have hcontent : hasContentB s0 = true ∧ s0 = s := by
    by_cases hc : hasContentB s0 = true
    · rw [if_pos hc] at hif
      injection hif with h2
      exact ⟨hc, h2⟩
    · rw [if_neg hc] at hif
      cases hif
  obtain ⟨hc, heq⟩ := hcontent
  subst heq
  unfold buildSlide at hbuild
  by_cases htitle : (r.title.length < 1 ∨ 200 < r.title.length)
  · rw [if_pos htitle] at hbuild
    cases hbuild
  · rw [if_neg htitle] at hbuild
    obtain ⟨bps, hbps, hbuild⟩ := except_bind_ok hbuild
    obtain ⟨tbl, htbl, hbuild⟩ := except_bind_ok hbuild
    obtain ⟨cht, hcht, hbuild⟩ := except_bind_ok hbuild
    obtain ⟨img, himg, hbuild⟩ := except_bind_ok hbuild
    have hrec : (⟨r.title, r.content.map validateContent, bps, tbl, cht, img,
        r.layout⟩ : SlideContent) = s0 := by
      injection hbuild with h2
    push_neg at htitle
    refine ⟨?_, ?_, ?_, ?_, ?_, hc⟩
    · rw [← hrec]
      show 1 ≤ r.title.length
      exact htitle.1
    · rw [← hrec]
      show r.title.length ≤ 200
      exact htitle.2
    · intro l hl b hb
      rw [← hrec] at hl
      simp only at hl
      subst hl
      rcases validateOptField_ok hbps with ⟨-, h2⟩ | ⟨x, v, -, hvx, h2⟩
      · cases h2
      · injection h2 with h3
        exact validateBullets_good hvx b (h3 ▸ hb)
    · intro t ht
      rw [← hrec] at ht
      simp only at ht
      subst ht
      rcases validateOptField_ok htbl with ⟨-, h2⟩ | ⟨x, v, -, hvx, h2⟩
      · cases h2
      · injection h2 with h3
        subst h3
        obtain ⟨heq, hh, hr⟩ := validateTableData_inv hvx
        rw [heq]
        exact ⟨hh, hr⟩
    · intro cdata hcd
      rw [← hrec] at hcd
      simp only at hcd
      subst hcd
      rcases validateOptField_ok hcht with ⟨-, h2⟩ | ⟨x, v, -, hvx, h2⟩
      · cases h2
      · injection h2 with h3
        subst h3
        exact validateChartData_inv hvx

lemma validateSlideContent_dump {s : SlideContent} (h : GoodSlide s) :
    validateSlideContent (dumpSlideContent s) = .ok s := by
  obtain ⟨h1, h2, hbul, htab, hcha, hcont⟩ := h
  have hbps : validateOptField validateBullets
      (s.bullet_points.map (fun l => l.map dumpBullet)) = .ok s.bullet_points := by
    cases hb : s.bullet_points with
    | none => rfl
    | some l =>
      show validateOptField validateBullets (some (l.map dumpBullet)) = .ok (some l)
      simp only [validateOptField]
      rw [validateBullets_dump (hbul l hb)]
      rfl
  have htbl : validateOptField validateTableData
      (s.table.map (fun t =>
        ({ headers := t.headers, rows := t.rows, style := t.style } : RawTableData))) =
      .ok s.table := by
    cases hb : s.table with
    | none => rfl
    | some t =>
      show validateOptField validateTableData
        (some { headers := t.headers, rows := t.rows, style := t.style }) = .ok (some t)
      simp only [validateOptField]
      rw [validateTableData_dump (htab t hb).1 (htab t hb).2]
      rfl
  have hcht : validateOptField validateChartData
      (s.chart.map (fun c =>
        ({ type := some (dumpChartType c.type), categories := c.categories,
           series := c.series.map (fun se => { name := se.name, data := se.data }) } :
          RawChartData))) = .ok s.chart := by
    cases hb : s.chart with
    | none => rfl
    | some c =>
      show validateOptField validateChartData (some _) = .ok (some c)
      simp only [validateOptField]
      rw [validateChartData_dump (hcha c hb).1 (hcha c hb).2]
      rfl
  have himg : validateOptField validateImageData
      (s.image.map (fun i =>
        ({ path := i.path, position := some (dumpImagePosition i.position) } :
          RawImageData))) = .ok s.image := by
    cases hb : s.image with
    | none => rfl
    | some i =>
      show validateOptField validateImageData (some _) = .ok (some i)
      simp only [validateOptField]
      rw [validateImageData_dump i]
      rfl
  have hcnt : ((s.content.map dumpContent).map validateContent) = s.content := by
    cases hb : s.content with
    | none => rfl
    | some c =>
      show some (validateContent (dumpContent c)) = some c
      rw [validateContent_dump]
  have hbuild : buildSlide (dumpSlideContent s) = .ok s := by
    unfold buildSlide dumpSlideContent
    rw [if_neg (by simp only; omega)]
    simp only [hbps, htbl, hcht, himg, hcnt, bind, Except.bind]
    rfl
  unfold validateSlideContent
  rw [hbuild]
  simp only [bind, Except.bind]
  rw [if_pos hcont]
  rfl


lemma validateSlides_good : ∀ {l : List RawSlideContent} {ss : List SlideContent},
    validateSlides l = .ok ss → ∀ s ∈ ss, GoodSlide s := by
  intro l
  induction l with
  | nil =>
    intro ss h s hs
    unfold validateSlides at h
    injection h with h2
    subst h2
    cases hs
  | cons r rest ih =>
    intro ss h s hs
    unfold validateSlides at h
    obtain ⟨v1, hv1, h⟩ := except_bind_ok h
    obtain ⟨vrest, hvrest, h⟩ := except_bind_ok h
    injection h with h2
    subst h2
    rcases List.mem_cons.mp hs with rfl | hmem
    · exact validateSlideContent_good hv1
    · exact ih hvrest s hmem

lemma validateSlides_length : ∀ {l : List RawSlideContent} {ss : List SlideContent},
    validateSlides l = .ok ss → ss.length = l.length := by
  intro l
  induction l with
  | nil =>
    intro ss h
    unfold validateSlides at h
    injection h with h2
    subst h2
    rfl
  | cons r rest ih =>
    intro ss h
    unfold validateSlides at h
    obtain ⟨v1, hv1, h⟩ := except_bind_ok h
    obtain ⟨vrest, hvrest, h⟩ := except_bind_ok h
    injection h with h2
    subst h2
    simp [ih hvrest]

lemma validateSlides_dump : ∀ {ss : List SlideContent},
    (∀ s ∈ ss, GoodSlide s) →
    validateSlides (ss.map dumpSlideContent) = .ok ss := by
  intro ss
  induction ss with
  | nil => intro _; rfl
  | cons s rest ih =>
    intro h
    simp only [List.map_cons]
    unfold validateSlides
    rw [validateSlideContent_dump (h s (List.mem_cons_self s rest))]
    simp only [bind, Except.bind]
    rw [ih (fun x hx => h x (List.mem_cons_of_mem s hx))]
    rfl

/-- C9: validation and normalization are idempotent: re-serializing a
validated presentation with `model_dump` and validating again yields the
same structure, and a bare bullet string normalizes to a level-0 bullet
item. -/
theorem validation_roundtrip :
    (∀ (raw : RawPresentationInput) (p : PresentationInput),
      validatePresentationInput raw = .ok p →
      validatePresentationInput (dumpPresentationInput p) = .ok p) ∧
    (∀ s : String, validateBullet (.str s) = .ok { text := s }) := by
  constructor
  · intro raw p h
    unfold validatePresentationInput at h
    by_cases htitle : (raw.title.length < 1 ∨ 200 < raw.title.length)
    · rw [if_pos htitle] at h
      cases h
    · rw [if_neg htitle] at h
      by_cases hslides : raw.slides.isEmpty = true
      · rw [if_pos hslides] at h
        cases h
      · rw [if_neg hslides] at h
        obtain ⟨ss, hss, h⟩ := except_bind_ok h
        injection h with h2
        subst h2
        have hgood := validateSlides_good hss
        have hlen := validateSlides_length hss
        unfold validatePresentationInput dumpPresentationInput
        rw [if_neg htitle]
        have hne : (ss.map dumpSlideContent).isEmpty ≠ true := by
          cases hs2 : ss with
          | nil =>
            rw [hs2] at hlen
            cases hl : raw.slides with
            | nil => rw [hl] at hslides; exact absurd rfl hslides
            | cons a b => rw [hl] at hlen; simp at hlen
          | cons a b => simp
        rw [if_neg hne]
        rw [validateSlides_dump hgood]
        rfl
  · intro s
    rfl

theorem validation_roundtrip_witness :
    validatePresentationInput
      (dumpPresentationInput
        { title := "W", slides := [{ title := "S", content := some (.str "c") }] }) =
      .ok { title := "W", slides := [{ title := "S", content := some (.str "c") }] } :=
  validation_roundtrip.1
    { title := "W", slides := [{ title := "S", content := some (.str "c") }] } _ rfl


lemma except_bind_ok2 {α β : Type} {e : Except GenError α} {f : α → Except GenError β} {b : β}
    (h : (e >>= f) = .ok b) : ∃ a, e = .ok a ∧ f a = .ok b := by
  cases e with
  | error msg => simp [bind, Except.bind] at h
  | ok a => exact ⟨a, rfl, by simpa [bind, Except.bind] using h⟩

lemma map_id_on {α : Type} {l : List α} {f : α → α} (h : ∀ x ∈ l, f x = x) :
    l.map f = l := by
  induction l with
  | nil => rfl
  | cons a t ih => simp_all

lemma mapFill_ok_mem {f : Placeholder → Except GenError Placeholder} :
    ∀ {l out}, mapFill f l = .ok out → ∀ p ∈ l, ∃ q, f p = .ok q := by
  intro l
  induction l with
  | nil => intro out h p hp; cases hp
  | cons a t ih =>
    intro out h p hp
    unfold mapFill at h
    obtain ⟨q, hq, h⟩ := except_bind_ok2 h
    obtain ⟨qs, hqs, h⟩ := except_bind_ok2 h
    rcases List.mem_cons.mp hp with rfl | hmem
    · exact ⟨q, hq⟩
    · exact ih hqs p hmem

lemma fillOne_phType {env : ImageEnv} {allPhs : List Placeholder} {sd : SlideContent}
    {p q : Placeholder} (h : fillOne env allPhs sd p = .ok q) :
    q.phType = p.phType ∧ q.idx = p.idx := by
  unfold fillOne at h
  repeat' split at h
  all_goals first
    | (rw [Except.ok.injEq] at h; subst h; exact ⟨rfl, rfl⟩)
    | (cases h)

lemma fillOne_body_eval {env : ImageEnv} {allPhs : List Placeholder} {sd : SlideContent}
    {p b0 : Placeholder} {brest : List Placeholder}
    (hb : bodyRoleB p = true)
    (hfil : allPhs.filter bodyRoleB = b0 :: brest)
    (htru : (truthyContent sd.content || truthyBullets sd.bullet_points) = true) :
    fillOne env allPhs sd p =
      (if p.idx == b0.idx then
        match fill_text sd.content sd.bullet_points with
        | .ok c => .ok { p with content := c }
        | .error e => .error (.pyError e)
      else .ok p) := by
  have hty : p.phType = 2 ∨ p.phType = 7 := by
    simp [bodyRoleB, PH_BODY, PH_OBJECT] at hb
    exact hb
  unfold fillOne
  rcases hty with h2 | h7
  · simp [h2, PH_TITLE, PH_PICTURE, PH_TABLE, PH_CHART, PH_BODY, PH_OBJECT,
      bodyRoleB, htru, hfil]
  · simp [h7, PH_TITLE, PH_PICTURE, PH_TABLE, PH_CHART, PH_BODY, PH_OBJECT,
      bodyRoleB, htru, hfil]

lemma fillC3_core {env : ImageEnv} {allPhs : List Placeholder} {sd : SlideContent}
    {b0 : Placeholder} {brest : List Placeholder} {ft : PHContent}
    (hft : fill_text sd.content sd.bullet_points = .ok ft)
    (hfil : allPhs.filter bodyRoleB = b0 :: brest)
    (htru : (truthyContent sd.content || truthyBullets sd.bullet_points) = true) :
    ∀ {l out}, mapFill (fillOne env allPhs sd) l = .ok out →
      out.filter bodyRoleB = (l.filter bodyRoleB).map
        (fun p => if p.idx == b0.idx then { p with content := ft } else p) := by
  intro l
  induction l with
  | nil =>
    intro out h
    unfold mapFill at h
    injection h with h2
    subst h2
    rfl
  | cons a t ih =>
    intro out h
    unfold mapFill at h
    obtain ⟨q, hq, h⟩ := except_bind_ok2 h
    obtain ⟨qs, hqs, h⟩ := except_bind_ok2 h
    injection h with h2
    subst h2
    by_cases hba : bodyRoleB a = true
    · have heval := @fillOne_body_eval env allPhs sd a b0 brest hba hfil htru
      rw [heval] at hq
      rw [hft] at hq
      by_cases hidx : (a.idx == b0.idx) = true
      · rw [if_pos hidx] at hq
        rw [Except.ok.injEq] at hq
        subst hq
        have hbq : bodyRoleB { a with content := ft } = true := hba
        simp only [List.filter_cons, hba, hbq, if_pos]
        rw [ih hqs]
        simp [eq_of_beq hidx]
      · rw [if_neg hidx] at hq
        rw [Except.ok.injEq] at hq
        subst hq
        simp only [List.filter_cons, hba]
        rw [ih hqs]
        simp only [Bool.not_eq_true] at hidx
        have hne : a.idx ≠ b0.idx := ne_of_beq_false hidx
        simp [hne]
    · simp only [Bool.not_eq_true] at hba
      have hpt := fillOne_phType hq
      have hbq : bodyRoleB q = false := by
        unfold bodyRoleB at hba ⊢
        rw [hpt.1]
        exact hba
      simpa [List.filter_cons, hba, hbq] using ih hqs

/-- C3: on a content slide whose layout exposes two or more body-role
(body or object) placeholders with distinct indices, exactly the first
body-role placeholder receives the filled text of the content and bullet
points, and every other body-role placeholder keeps its original
content. -/
theorem single_body_fill (env : ImageEnv) (allPhs : List Placeholder)
    (sd : SlideContent) (out : List Placeholder) (b0 : Placeholder)
    (brest : List Placeholder)
    (hdistinct : (allPhs.filter bodyRoleB).Pairwise (fun a b => a.idx ≠ b.idx))
    (hbody : allPhs.filter bodyRoleB = b0 :: brest)
    (htwo : 1 ≤ brest.length)
    (htru : (truthyContent sd.content || truthyBullets sd.bullet_points) = true)
    (hok : fillContentSlide env allPhs sd = .ok out) :
    ∃ ft, fill_text sd.content sd.bullet_points = .ok ft ∧
      out.filter bodyRoleB = { b0 with content := ft } :: brest := by
  have hb0mem : b0 ∈ allPhs := by
    have : b0 ∈ allPhs.filter bodyRoleB := by
      rw [hbody]; exact List.mem_cons_self b0 brest
    exact List.mem_of_mem_filter this
  have hb0body : bodyRoleB b0 = true := by
    have : b0 ∈ allPhs.filter bodyRoleB := by
      rw [hbody]; exact List.mem_cons_self b0 brest
    exact List.of_mem_filter this
  obtain ⟨q, hq⟩ := mapFill_ok_mem hok b0 hb0mem
  have heval := @fillOne_body_eval env allPhs sd b0 b0 brest hb0body hbody htru
  rw [heval] at hq
  rw [if_pos (by simp)] at hq
  cases hft : fill_text sd.content sd.bullet_points with
  | error e => rw [hft] at hq; cases hq
  | ok ft =>
    refine ⟨ft, rfl, ?_⟩
    have hcore := @fillC3_core env allPhs sd b0 brest ft hft hbody htru allPhs out hok
    rw [hcore, hbody]
    simp only [List.map_cons]
    rw [if_pos (by simp)]
    have hrest : brest.map
        (fun p => if p.idx == b0.idx then { p with content := ft } else p) = brest := by
      apply map_id_on
      intro x hx
      have hne : b0.idx ≠ x.idx := (List.pairwise_cons.mp (hbody ▸ hdistinct)).1 x hx
      rw [if_neg (by simp; exact fun he => hne he.symm)]
    rw [hrest]


theorem single_body_fill_witness :
    ∃ ft, fill_text (some (.str "x")) none = .ok ft ∧
      ([(⟨PH_BODY, 0, true, textSet "x"⟩ : Placeholder),
        ⟨PH_OBJECT, 1, true, .empty⟩].filter bodyRoleB) =
        { (⟨PH_BODY, 0, true, PHContent.empty⟩ : Placeholder) with content := ft } ::
          [⟨PH_OBJECT, 1, true, PHContent.empty⟩] :=
  single_body_fill offlineEnv
    [⟨PH_BODY, 0, true, .empty⟩, ⟨PH_OBJECT, 1, true, .empty⟩]
    { title := "t", content := some (.str "x") }
    [⟨PH_BODY, 0, true, textSet "x"⟩, ⟨PH_OBJECT, 1, true, .empty⟩]
    ⟨PH_BODY, 0, true, .empty⟩ [⟨PH_OBJECT, 1, true, .empty⟩]
    (by decide) rfl (by decide) rfl rfl

lemma get_layout_name {prs : Pres} {nm : String} {lay : SlideLayout}
    (h : get_layout prs nm = .ok lay) : lay.name = nm := by
  unfold get_layout at h
  cases hf : prs.slide_layouts.find? (fun l => l.name == nm) with
  | none => rw [hf] at h; cases h
  | some l =>
    rw [hf] at h
    injection h with h2
    subst h2
    have hp := List.find?_some hf
    have hp2 : (l.name == nm) = true := hp
    exact eq_of_beq hp2

lemma processSlides_spec {env : ImageEnv} : ∀ {l : List SlideContent} {prs out : Pres},
    processSlides env prs l = .ok out →
    ∃ news, out.slides = prs.slides ++ news ∧
      news.map (fun sl => sl.layoutName) = l.map detect_layout := by
  intro l
  induction l with
  | nil =>
    intro prs out h
    unfold processSlides at h
    injection h with h2
    subst h2
    exact ⟨[], by simp, rfl⟩
  | cons sd rest ih =>
    intro prs out h
    unfold processSlides at h
    cases hg : get_layout prs (detect_layout sd) with
    | error e => simp only [hg] at h; cases h
    | ok lay =>
      simp only [hg] at h
      cases hf : fillContentSlide env (cloneablePlaceholders lay.placeholders) sd with
      | error e => simp only [hf] at h; cases h
      | ok phs =>
        simp only [hf] at h
        obtain ⟨news, hs, hm⟩ := ih h
        refine ⟨({ layoutName := lay.name, placeholders := phs } : Slide) :: news, ?_, ?_⟩
        · rw [hs]; simp
        · simp only [List.map_cons, hm]
          rw [get_layout_name hg]

/-- C2: synthesis ignores the pre-existing slides of the template, and a
successful run on a spec with n slides yields the synthesized title
slide first followed by one slide per input slide in order (so n+1
slides); the minimal one-slide input produces the two-slide document
`demoExpected`, whose content slide uses the `Content Only` layout and
carries the body text `hello`. -/
theorem generate_slide_structure (env : ImageEnv) (raw : RawPresentationInput)
    (template : Pres) (out : Pres) :
    generate_presentation_stream env raw template =
      generate_presentation_stream env raw { template with slides := [] } ∧
    (generate_presentation_stream env raw template = .ok out →
      ∃ data, validatePresentationInput raw = .ok data ∧
        out.slides.map (fun sl => sl.layoutName) =
          "Title Slide" :: data.slides.map detect_layout ∧
        out.slides.length = data.slides.length + 1) ∧
    generate_presentation_stream offlineEnv demoRaw demoTemplate = .ok demoExpected := by
  refine ⟨rfl, ?_, rfl⟩
  intro h
  unfold generate_presentation_stream at h
  cases hv : validatePresentationInput raw with
  | error e => simp only [hv] at h; cases h
  | ok data =>
    simp only [hv] at h
    refine ⟨data, rfl, ?_⟩
    cases hg : get_layout
        { template with
          slides := [],
          core_title := some data.title,
          core_author := if truthyStr data.author then data.author else template.core_author,
          core_subject := if truthyStr data.subject then data.subject else template.core_subject }
        ((LAYOUTS_lookup "title_slide").getD "") with
    | error e =>
      simp only [hg] at h
      cases h
    | ok lay =>
      simp only [hg] at h
      obtain ⟨news, hs, hm⟩ := processSlides_spec h
      have hname : lay.name = "Title Slide" := get_layout_name hg
      constructor
      · rw [hs]
        simp only [List.map_append, List.map_cons, List.map_nil]
        rw [hm, hname]
        rfl
      · rw [hs]
        simp only [List.length_append, List.length_cons, List.length_nil]
        have : news.length = data.slides.length := by
          have := congrArg List.length hm
          simpa using this
        omega

theorem generate_slide_structure_witness :
    ∃ data, validatePresentationInput demoRaw = .ok data ∧
      demoExpected.slides.map (fun sl => sl.layoutName) =
        "Title Slide" :: data.slides.map detect_layout ∧
      demoExpected.slides.length = data.slides.length + 1 :=
  (generate_slide_structure offlineEnv demoRaw demoTemplate demoExpected).2.1
    (generate_slide_structure offlineEnv demoRaw demoTemplate demoExpected).2.2



theorem apply_formatting_color_witness :
    (∃ out, apply_formatting { text := "w" } { color := some "#00FF7F" } = .ok out) ∧
    (∃ e, apply_formatting { text := "w" } { color := some "red" } = .error e) := by
  constructor
  · exact apply_formatting_color.1 { text := "w" } { color := some "#00FF7F" }
      "#00FF7F" rfl rfl
  · exact apply_formatting_color.2.1 { text := "w" } { color := some "red" } rfl

end PPT
